import Mathlib

/-!
Shallow embedding of the phincafe/dashboard backend aggregation logic
(src/backend/index.js, src/backend/hourlyRoutes.js, src/backend/itemsRoutes.js,
src/unnamed/part_004) together with proofs settling the frozen claims.

Money amounts are minor currency units carried as integers; the JavaScript
conversion of a bigint amount to a double (the Number function) is modelled
by rounding to 53 significand bits (round to nearest, ties to even), and the
final divide by 100 is modelled exactly over the rationals.
-/

namespace PhinDash

/-- JS truthiness fallback for strings: the expression a or-else b where the
empty string counts as falsy, as in loc.name or-else loc.id. -/
def jsOrStr (a : Option String) (b : String) : String :=
  match a with
  | some s => if s = "" then b else s
  | none => b

/-- Round a natural number to the nearest IEEE-754 binary64 value
(53-bit significand, ties to even), restricted to integer inputs.
This models the JavaScript Number conversion applied to a bigint. -/
def f64roundNat (a : Nat) : Nat :=
  if a = 0 then 0
  else
    let k := Nat.log2 a
    if k ≤ 52 then a
    else
      let s := k - 52
      let q := a / 2 ^ s
      let r := a % 2 ^ s
      if 2 * r < 2 ^ s then q * 2 ^ s
      else if 2 * r > 2 ^ s then (q + 1) * 2 ^ s
      else if q % 2 = 0 then q * 2 ^ s else (q + 1) * 2 ^ s

/-- The JavaScript Number conversion of a (signed) bigint, as integer rounding. -/
def f64ofInt (n : Int) : Int :=
  if n < 0 then -(f64roundNat n.natAbs : Int) else (f64roundNat n.natAbs : Int)

/-- A payment record as consumed from the upstream payments list
(fields the aggregation reads). createdAt is an epoch-second instant;
none models a missing field. The amount is the minor-unit bigint. -/
structure Payment where
  status : Option String
  amount : Option Int
  createdAt : Option Int
  locationId : String
  deriving Repr, DecidableEq

/-- An upstream location entry. -/
structure LocationInfo where
  id : String
  name : Option String
  deriving Repr, DecidableEq

/-- Skip test of aggregateForLocation (index.js line 109):
if (payment.status and payment.status !== COMPLETED) continue.
A missing status, or an empty-string status (falsy), is not skipped. -/
def paymentSkipDaily (p : Payment) : Bool :=
  match p.status with
  | some s => s ≠ "" && s ≠ "COMPLETED"
  | none => false

/-- Skip test of aggregateForLocationSummary (index.js line 154):
if (payment.status !== COMPLETED) continue.
A missing status is skipped here. -/
def paymentSkipSummary (p : Payment) : Bool :=
  p.status ≠ some "COMPLETED"

/-- amountCents as computed in index.js lines 111-113: the amount defaults
to the bigint zero when missing, and is passed through the Number conversion. -/
def amountCentsOf (p : Payment) : Int :=
  f64ofInt (p.amount.getD 0)

/-- Accumulator of one location aggregation: running total in minor units
and record count. -/
structure LocAgg where
  totalCents : Int
  count : Nat
  deriving Repr, DecidableEq

/-- aggregateForLocation (index.js lines 95-135), restricted to the totals
it accumulates over the page-iterated payments list. -/
def aggregateForLocation (ps : List Payment) : LocAgg :=
  ps.foldl
    (fun acc p =>
      if paymentSkipDaily p then acc
      else { totalCents := acc.totalCents + amountCentsOf p, count := acc.count + 1 })
    { totalCents := 0, count := 0 }

/-- aggregateForLocationSummary (index.js lines 141-168). -/
def aggregateForLocationSummary (ps : List Payment) : LocAgg :=
  ps.foldl
    (fun acc p =>
      if paymentSkipSummary p then acc
      else { totalCents := acc.totalCents + amountCentsOf p, count := acc.count + 1 })
    { totalCents := 0, count := 0 }

/-- The per-payment detail amount pushed into the payments array
(index.js line 124): amountCents / 100, modelled exactly over the rationals. -/
def paymentMajorAmount (p : Payment) : ℚ :=
  (amountCentsOf p : ℚ) / 100

/-- One entry of the locations array of the /api/sales response. -/
structure SalesLocationEntry where
  locationId : String
  locationName : String
  total : ℚ
  count : Nat
  deriving Repr, DecidableEq

/-- The /api/sales response fields the claims are about. -/
structure SalesResponse where
  grandTotal : ℚ
  grandCount : Nat
  locationsCount : Nat
  locations : List SalesLocationEntry
  deriving Repr, DecidableEq

/-- The per-location mapping of the /api/sales handler (index.js lines 642-659):
aggregate one location, divide the cents total by 100. -/
def salesLocationEntryOf (loc : LocationInfo) (ps : List Payment) :
    SalesLocationEntry :=
  let agg := aggregateForLocation ps
  { locationId := loc.id
    locationName := jsOrStr loc.name loc.id
    total := (agg.totalCents : ℚ) / 100
    count := agg.count }

/-- Assembly of the /api/sales response (index.js lines 661-681): the grand
total and grand count are reduced over the per-location entries. -/
def salesResponseOf (dper : List SalesLocationEntry) : SalesResponse :=
  { grandTotal := dper.foldl (fun s l => s + l.total) 0
    grandCount := dper.foldl (fun s l => s + l.count) 0
    locationsCount := dper.length
    locations := dper }

/-- The /api/sales daily pipeline (index.js lines 620-696) after the upstream
fetches succeeded: map every known location through its aggregate and reduce
the grand totals. -/
def salesDaily (locs : List LocationInfo) (fetch : String → List Payment) :
    SalesResponse :=
  salesResponseOf (locs.map (fun loc => salesLocationEntryOf loc (fetch loc.id)))

/-- The per-location mapping of the summary handlers (index.js lines 722-737):
like the daily one but over aggregateForLocationSummary. -/
def summaryLocationEntryOf (loc : LocationInfo) (ps : List Payment) :
    SalesLocationEntry :=
  let agg := aggregateForLocationSummary ps
  { locationId := loc.id
    locationName := jsOrStr loc.name loc.id
    total := (agg.totalCents : ℚ) / 100
    count := agg.count }

/-- The weekly / monthly / yearly summary pipeline (index.js lines 699-900)
after the upstream fetches succeeded. -/
def salesSummary (locs : List LocationInfo) (fetch : String → List Payment) :
    SalesResponse :=
  salesResponseOf (locs.map (fun loc => summaryLocationEntryOf loc (fetch loc.id)))

/-! ## Calendar model (luxon date arithmetic used by the period resolvers) -/

/-- Proleptic Gregorian leap-year test. -/
def isLeapYear (y : Int) : Bool :=
  (y % 4 == 0 && y % 100 != 0) || y % 400 == 0

/-- Length of a calendar month. -/
def daysInMonth (y : Int) (m : Nat) : Nat :=
  if m = 2 then (if isLeapYear y then 29 else 28)
  else if m = 4 ∨ m = 6 ∨ m = 9 ∨ m = 11 then 30
  else 31

/-- A calendar date in the store timezone. -/
structure CalDate where
  year : Int
  month : Nat
  day : Nat
  deriving Repr, DecidableEq

/-- Civil day count since 1970-01-01 (proleptic Gregorian). -/
def daysFromCivil (d : CalDate) : Int :=
  let y : Int := if d.month ≤ 2 then d.year - 1 else d.year
  let era : Int := y.fdiv 400
  let yoe : Nat := (y - era * 400).toNat
  let mp : Nat := if 2 < d.month then d.month - 3 else d.month + 9
  let doy : Nat := (153 * mp + 2) / 5 + d.day - 1
  let doe : Nat := yoe * 365 + yoe / 4 - yoe / 100 + doy
  era * 146097 + (doe : Int) - 719468

/-- Weekday of a civil day number, 1 = Monday .. 7 = Sunday (luxon convention;
day 0 = 1970-01-01 is a Thursday). -/
def weekdayOfDays (z : Int) : Nat :=
  ((z + 3) % 7).toNat + 1

/-- Weekday of a calendar date, 1 = Monday .. 7 = Sunday. -/
def weekdayOf (d : CalDate) : Nat :=
  weekdayOfDays (daysFromCivil d)

/-- startOf month of a luxon DateTime, on the date part. -/
def startOfMonthD (d : CalDate) : CalDate :=
  { year := d.year, month := d.month, day := 1 }

/-- endOf month of a luxon DateTime, on the date part. -/
def endOfMonthD (d : CalDate) : CalDate :=
  { year := d.year, month := d.month, day := daysInMonth d.year d.month }

/-- startOf year, on the date part. -/
def startOfYearD (d : CalDate) : CalDate :=
  { year := d.year, month := 1, day := 1 }

/-- endOf year, on the date part. -/
def endOfYearD (d : CalDate) : CalDate :=
  { year := d.year, month := 12, day := 31 }

/-- Luxon minus one month: previous month, day-of-month clamped to its length. -/
def minusOneMonthLuxon (d : CalDate) : CalDate :=
  let py : Int := if d.month = 1 then d.year - 1 else d.year
  let pm : Nat := if d.month = 1 then 12 else d.month - 1
  { year := py, month := pm, day := min d.day (daysInMonth py pm) }

/-- Luxon minus one year: previous year, day-of-month clamped (Feb 29 cases). -/
def minusOneYearLuxon (d : CalDate) : CalDate :=
  { year := d.year - 1, month := d.month
    day := min d.day (daysInMonth (d.year - 1) d.month) }

/-- Prior-period date of the daily hourly route (part_004 line 54):
target.minus 7 days, expressed on civil day numbers. -/
def hourlyDailyPrevDays (d : CalDate) : Int :=
  daysFromCivil d - 7

/-- Prior-period range of the weekly hourly route (part_004 lines 122-123):
both week bounds shifted back one week, i.e. 7 days, on civil day numbers. -/
def hourlyWeeklyPrevRange (s e : Int) : Int × Int :=
  (s - 7, e - 7)

/-- Prior-period range of the monthly hourly route (part_004 lines 206-207):
start.minus one month re-anchored with startOf month, and that month's endOf. -/
def hourlyMonthlyPrevRange (start : CalDate) : CalDate × CalDate :=
  let prevStart := startOfMonthD (minusOneMonthLuxon start)
  (prevStart, endOfMonthD prevStart)

/-- Prior-period range of the yearly hourly route (part_004 lines 290-291):
start.minus one year re-anchored with startOf year, and that year's endOf. -/
def hourlyYearlyPrevRange (start : CalDate) : CalDate × CalDate :=
  let prevStart := startOfYearD (minusOneYearLuxon start)
  (prevStart, endOfYearD prevStart)

/-! ## Hourly summary of part_004 (buildHourlySummaryForRange)

Instants are epoch seconds; an IANA timezone is modelled by its
offset-in-minutes function of the instant, so that converting an instant to
the zone and reading the local hour is floor division by 3600 modulo 24. -/

/-- Local hour (0-23) of a UTC instant converted to the target timezone. -/
def localHour (offset : Int → Int) (t : Int) : Nat :=
  (((t + 60 * offset t) / 3600) % 24).toNat

/-- One bucket of the part_004 hourly object: per-location totals and counts
(defined exactly on the initialised location ids) plus all-location totals. -/
structure HourBucket where
  totalsByLocation : String → Option ℚ
  countByLocation : String → Option Nat
  totalAllLocations : ℚ
  countAllLocations : Nat

/-- A fresh bucket: every known location id maps to zero. -/
def emptyHourBucket (locIds : List String) : HourBucket :=
  { totalsByLocation := fun l => if l ∈ locIds then some 0 else none
    countByLocation := fun l => if l ∈ locIds then some 0 else none
    totalAllLocations := 0
    countAllLocations := 0 }

/-- initHourlyBuckets (part_004 lines 339-361): one bucket per hour 5..20,
zero-initialised for every known location; no bucket outside that window. -/
def initHourlyBuckets (locations : List LocationInfo) : Nat → Option HourBucket :=
  fun h =>
    if 5 ≤ h ∧ h ≤ 20 then some (emptyHourBucket (locations.map (fun l => l.id)))
    else none

/-- Adding one payment of the given cents at the given location to a bucket
(part_004 lines 450-457). -/
def hourBucketAdd (b : HourBucket) (locId : String) (cents : Int) : HourBucket :=
  { totalsByLocation := fun l =>
      if l = locId then (b.totalsByLocation l).map (fun q => q + (cents : ℚ) / 100)
      else b.totalsByLocation l
    countByLocation := fun l =>
      if l = locId then (b.countByLocation l).map (fun n => n + 1)
      else b.countByLocation l
    totalAllLocations := b.totalAllLocations + (cents : ℚ) / 100
    countAllLocations := b.countAllLocations + 1 }

/-- Running state of the part_004 range aggregation. -/
structure HourlyAccum where
  hourly : Nat → Option HourBucket
  totalCents : Int
  count : Nat

/-- Processing of one payment of one location (part_004 lines 432-461):
skip non-completed, skip a missing createdAt, convert to the target zone,
skip hours outside 5..20, then add to the bucket keyed by the local hour and
to the all-location running totals. -/
def hourlyRecordStep (offset : Int → Int) (locId : String)
    (st : HourlyAccum) (p : Payment) : HourlyAccum :=
  if paymentSkipDaily p then st
  else
    let cents := amountCentsOf p
    match p.createdAt with
    | none => st
    | some t =>
      let h := localHour offset t
      if h < 5 ∨ 20 < h then st
      else
        match st.hourly h with
        | none => st
        | some b =>
          { hourly := fun h2 =>
              if h2 = h then some (hourBucketAdd b locId cents) else st.hourly h2
            totalCents := st.totalCents + cents
            count := st.count + 1 }

/-- The fields of the part_004 range summary the claims are about. -/
structure HourlySummary where
  hourly : Nat → Option HourBucket
  maxHourAllLocations : ℚ
  totalAllLocations : ℚ
  totalCountAllLocations : Nat

/-- The hour keys 5..20 the summary loops over. -/
def summaryHours : List Nat :=
  (List.range 16).map (fun i => i + 5)

/-- buildHourlySummaryForRange (part_004 lines 406-486), restricted to the
payment aggregation: one payments fetch per location folded into the
pre-initialised buckets, then the max-bucket reduce and the grand totals. -/
def buildHourlySummaryForRange (offset : Int → Int)
    (locations : List LocationInfo) (fetch : String → List Payment) :
    HourlySummary :=
  let st0 : HourlyAccum :=
    { hourly := initHourlyBuckets locations, totalCents := 0, count := 0 }
  let stF := locations.foldl
    (fun st loc => (fetch loc.id).foldl (hourlyRecordStep offset loc.id) st) st0
  let maxH := summaryHours.foldl
    (fun mx h =>
      match stF.hourly h with
      | some b => if mx < b.totalAllLocations then b.totalAllLocations else mx
      | none => mx)
    0
  { hourly := stF.hourly
    maxHourAllLocations := maxH
    totalAllLocations := (stF.totalCents : ℚ) / 100
    totalCountAllLocations := stF.count }

/-- The location-payment pairs the nested part_004 loops visit, in order. -/
def locPairs (locations : List LocationInfo) (fetch : String → List Payment) :
    List (String × Payment) :=
  locations.flatMap (fun loc => (fetch loc.id).map (fun p => (loc.id, p)))

/-- Whether a payment record is placed in the hour-h bucket: not skipped,
createdAt present, and the local hour of the converted instant equals h. -/
def placedInHour (offset : Int → Int) (p : Payment) (h : Nat) : Bool :=
  !paymentSkipDaily p &&
    match p.createdAt with
    | some t => localHour offset t = h
    | none => false

/-! ## Orders-based hourly heatmap (backend/hourlyRoutes.js aggregateHourlyForDate) -/

/-- A line item of an upstream order (fields the aggregations read).
quantity models the parseFloat of the quantity string. -/
structure LineItem where
  name : Option String
  quantity : Option ℚ
  grossSales : Option Int
  totalMoney : Option Int
  catalogObjectId : Option String

/-- An upstream order. createdAt and closedAt are epoch-second instants. -/
structure UpOrder where
  locationId : Option String
  createdAt : Option Int
  closedAt : Option Int
  lineItems : List LineItem

/-- Minor-unit money of one line item (hourlyRoutes.js lines 127-134):
grossSalesMoney, falling back to totalMoney, falling back to the bigint zero,
through the Number conversion. -/
def lineItemCents (li : LineItem) : Int :=
  f64ofInt ((li.grossSales.or li.totalMoney).getD 0)

/-- Minor-unit total of an order: line item cents accumulated. -/
def orderCents (o : UpOrder) : Int :=
  o.lineItems.foldl (fun s li => s + lineItemCents li) 0

/-- The instant an order is bucketed by (hourlyRoutes.js line 116):
createdAt, falling back to closedAt, else null. -/
def orderInstant (o : UpOrder) : Option Int :=
  o.createdAt.or o.closedAt

/-- Per-location accumulator of aggregateHourlyForDate: 24 hour buckets of
running cents, created lazily on the first order of the location. -/
structure PerLocAccum where
  locationId : String
  locationName : String
  buckets : Nat → Int

/-- Running state of aggregateHourlyForDate. -/
structure DailyHourlyAccum where
  overall : Nat → Int
  perLoc : List PerLocAccum

/-- Insert an empty per-location entry when the id is not present yet
(hourlyRoutes.js lines 108-114); insertion order of the JS Map is kept. -/
def ensureLoc (locName : String → String) (l : List PerLocAccum) (locId : String) :
    List PerLocAccum :=
  if l.any (fun e => e.locationId = locId) then l
  else l ++ [{ locationId := locId, locationName := locName locId
               buckets := fun _ => 0 }]

/-- Add cents to hour h of the entry with the given id. -/
def bumpLoc (l : List PerLocAccum) (locId : String) (h : Nat) (cents : Int) :
    List PerLocAccum :=
  l.map (fun e =>
    if e.locationId = locId then
      { e with buckets := fun h2 => if h2 = h then e.buckets h2 + cents else e.buckets h2 }
    else e)

/-- Processing of one order (hourlyRoutes.js lines 102-146): the per-location
entry is created before the createdAt check, so it exists even when the order
is then skipped; orders with no instant or a non-positive total add nothing;
otherwise the cents are added at the local hour of the converted instant. -/
def hourlyOrderStep (offset : Int → Int) (locName : String → String)
    (st : DailyHourlyAccum) (o : UpOrder) : DailyHourlyAccum :=
  let locId := jsOrStr o.locationId "UNKNOWN"
  let perLoc := ensureLoc locName st.perLoc locId
  match orderInstant o with
  | none => { overall := st.overall, perLoc := perLoc }
  | some t =>
    let h := localHour offset t
    let cents := orderCents o
    if cents ≤ 0 then { overall := st.overall, perLoc := perLoc }
    else
      { overall := fun h2 => if h2 = h then st.overall h2 + cents else st.overall h2
        perLoc := bumpLoc perLoc locId h cents }

/-- One formatted hour bucket of the /api/hourly response. -/
structure HourTotal where
  hour : Nat
  total : ℚ
  deriving Repr, DecidableEq

/-- One formatted per-location entry of the /api/hourly response. -/
structure HourlyLocEntry where
  locationId : String
  locationName : String
  total : ℚ
  buckets : List HourTotal
  deriving Repr, DecidableEq

/-- The /api/hourly response fields the claims are about. -/
structure DailyHourlyResult where
  grandTotal : ℚ
  buckets : List HourTotal
  locations : List HourlyLocEntry
  deriving Repr, DecidableEq

/-- aggregateHourlyForDate (hourlyRoutes.js lines 39-209) after the upstream
calls succeeded: fold the paged orders into the dense 0-23 overall buckets and
the lazily created per-location buckets, then format, reduce each location
total over its buckets, and reduce the grand total over the location totals. -/
def aggregateHourlyForDate (offset : Int → Int)
    (locations : List LocationInfo) (orders : List UpOrder) : DailyHourlyResult :=
  let locName := fun id =>
    match locations.find? (fun l => l.id = id) with
    | some loc => jsOrStr loc.name id
    | none => id
  let st := orders.foldl (hourlyOrderStep offset locName)
    { overall := fun _ => 0, perLoc := [] }
  let overall := (List.range 24).map
    (fun h => { hour := h, total := (st.overall h : ℚ) / 100 : HourTotal })
  let locationsArr := st.perLoc.map (fun e =>
    let buckets := (List.range 24).map
      (fun h => { hour := h, total := (e.buckets h : ℚ) / 100 : HourTotal })
    let locTotal := buckets.foldl (fun s b => s + b.total) 0
    { locationId := e.locationId, locationName := e.locationName
      total := locTotal, buckets := buckets : HourlyLocEntry })
  { grandTotal := locationsArr.foldl (fun s l => s + l.total) 0
    buckets := overall
    locations := locationsArr }

/-- Whether an order contributes to the hour-h bucket of
aggregateHourlyForDate: an instant is present, the order total is positive,
and the local hour of the converted instant equals h. -/
def orderPlacedInHour (offset : Int → Int) (o : UpOrder) (h : Nat) : Bool :=
  match orderInstant o with
  | some t => (0 < orderCents o) && localHour offset t = h
  | none => false

/-! ## Item sales aggregation (backend/itemsRoutes.js aggregateItemSalesForRange) -/

/-- Drop trailing whitespace characters. -/
def dropTrailingWs (cs : List Char) : List Char :=
  (cs.reverse.dropWhile (fun c => c.isWhitespace)).reverse

/-- Strip one trailing parenthetical qualifier (itemsRoutes.js line 870): the
match starts at the first opening parenthesis after which no closing
parenthesis occurs before the final character, which must be a closing one. -/
def stripTrailingParen (s : String) : String :=
  match s.data.getLast? with
  | some ')' =>
    let body := s.data.dropLast
    let seg := (body.reverse.takeWhile (fun c => c ≠ ')')).reverse
    if seg.any (fun c => c = '(') then
      let prefixPart := body.take (body.length - seg.length)
      String.mk (dropTrailingWs (prefixPart ++ seg.takeWhile (fun c => c ≠ '(')))
    else s
  | _ => s

/-- The size and temperature words of the suffix regex (itemsRoutes.js 873). -/
def sizeSuffixWords : List String :=
  ["small", "medium", "large", "hot", "cold", "iced"]

/-- Strip one trailing size or temperature suffix of the shape
dash-then-word, case-insensitive, with optional surrounding whitespace. -/
def stripSizeSuffix (s : String) : String :=
  match sizeSuffixWords.find? (fun w => s.toLower.endsWith w) with
  | some w =>
    let rest := String.mk (dropTrailingWs (s.data.take (s.length - w.length)))
    match rest.data.getLast? with
    | some '-' => String.mk (dropTrailingWs rest.data.dropLast)
    | _ => s
  | none => s

/-- normalizeItemName (itemsRoutes.js lines 864-879). -/
def normalizeItemName (rawName : String) : String :=
  if rawName = "" then "Unnamed item"
  else (stripSizeSuffix (stripTrailingParen rawName.trim)).trim

/-- The JS Map set-or-insert with in-place mutation of the present value:
update the entry when the key exists, else append the transformed initial
value, keeping insertion order. -/
def mapUpsert {β : Type} (k : String) (init : β) (f : β → β) :
    List (String × β) → List (String × β)
  | [] => [(k, f init)]
  | kv :: rest =>
    if kv.1 = k then (kv.1, f kv.2) :: rest else kv :: mapUpsert k init f rest

/-- One accumulating item bucket (itemsRoutes.js lines 770-793). -/
structure ItemBucket where
  itemName : String
  catalogObjectId : Option String
  quantity : ℚ
  totalCents : Int

/-- Grouping key of a line item: the normalized name, case-folded
(itemsRoutes.js lines 751-756). -/
def lineItemKey (li : LineItem) : String :=
  (normalizeItemName (jsOrStr li.name "Unnamed item")).toLower

/-- The zero bucket inserted when a key is first seen; the first seen
variation donates name and catalog id. -/
def initItemBucket (li : LineItem) : ItemBucket :=
  { itemName := normalizeItemName (jsOrStr li.name "Unnamed item")
    catalogObjectId := li.catalogObjectId
    quantity := 0
    totalCents := 0 }

/-- Accumulate one line item into a bucket. -/
def bumpItemBucket (li : LineItem) (b : ItemBucket) : ItemBucket :=
  { b with quantity := b.quantity + li.quantity.getD 0
           totalCents := b.totalCents + lineItemCents li }

/-- Fold the line items of one order into an items map. -/
def orderItemsFold (m : List (String × ItemBucket)) (lis : List LineItem) :
    List (String × ItemBucket) :=
  lis.foldl (fun acc li => mapUpsert (lineItemKey li) (initItemBucket li) (bumpItemBucket li) acc) m

/-- Per-location accumulator of the item aggregation. -/
structure LocItemsAccum where
  locationId : String
  locationName : String
  itemsMap : List (String × ItemBucket)

/-- Processing of one order (itemsRoutes.js lines 733-795): ensure the
per-location entry, then fold every line item into both that entry's map and
the overall map. -/
def itemOrderStep (locName : String → String)
    (st : List (String × LocItemsAccum) × List (String × ItemBucket))
    (o : UpOrder) :
    List (String × LocItemsAccum) × List (String × ItemBucket) :=
  let locId := jsOrStr o.locationId "UNKNOWN"
  let perLoc := mapUpsert locId
    { locationId := locId, locationName := locName locId, itemsMap := [] }
    (fun lb => { lb with itemsMap := orderItemsFold lb.itemsMap o.lineItems })
    st.1
  let overall := orderItemsFold st.2 o.lineItems
  (perLoc, overall)

/-- One formatted item entry of the items responses. -/
structure ItemEntry where
  itemName : String
  catalogObjectId : Option String
  quantity : ℚ
  total : ℚ

/-- One formatted per-location entry of the items responses. -/
structure ItemsLocEntry where
  locationId : String
  locationName : String
  total : ℚ
  items : List ItemEntry

/-- The items response fields the claims are about. -/
structure ItemSalesResult where
  grandTotal : ℚ
  overallItems : List ItemEntry
  perLocation : List ItemsLocEntry

/-- Format an accumulated bucket: cents divided by 100 exactly. -/
def itemEntryOf (b : ItemBucket) : ItemEntry :=
  { itemName := b.itemName, catalogObjectId := b.catalogObjectId
    quantity := b.quantity, total := (b.totalCents : ℚ) / 100 }

/-- The JS descending sort by total (itemsRoutes.js lines 815 and 846). -/
def sortByTotalDesc (l : List ItemEntry) : List ItemEntry :=
  l.mergeSort (fun a b => decide (b.total ≤ a.total))

/-- aggregateItemSalesForRange (itemsRoutes.js lines 676-855) after the
upstream calls succeeded: fold the paged orders through the grouping maps,
then format, sort each array by total, reduce each location total over its
items, and reduce the grand total over the overall items. -/
def aggregateItemSalesForRange (locations : List LocationInfo)
    (orders : List UpOrder) : ItemSalesResult :=
  let locName := fun id =>
    match locations.find? (fun l => l.id = id) with
    | some loc => jsOrStr loc.name id
    | none => id
  let st := orders.foldl (itemOrderStep locName) ([], [])
  let perLocationArray := st.1.map (fun kv =>
    let itemsArray := sortByTotalDesc (kv.2.itemsMap.map (fun ib => itemEntryOf ib.2))
    { locationId := kv.2.locationId
      locationName := kv.2.locationName
      total := itemsArray.foldl (fun s it => s + it.total) 0
      items := itemsArray : ItemsLocEntry })
  let overallArray := sortByTotalDesc (st.2.map (fun ib => itemEntryOf ib.2))
  { grandTotal := overallArray.foldl (fun s it => s + it.total) 0
    overallItems := overallArray
    perLocation := perLocationArray }

/-! ## ISO date parsing (the validity test behind DateTime.fromISO isValid) -/

/-- Decimal digit value of a character, none when not a digit. -/
def digitVal (c : Char) : Option Nat :=
  if c.isDigit then some (c.toNat - 48) else none

/-- Parse a fixed-width decimal number from characters; none on a non-digit. -/
def digitsVal (cs : List Char) : Option Nat :=
  cs.foldl
    (fun acc c =>
      match acc, digitVal c with
      | some n, some d => some (n * 10 + d)
      | _, _ => none)
    (some 0)

/-- Validity and value of a YYYY-MM-DD string, modelling luxon
DateTime.fromISO for the calendar-date strings the routes build. -/
def parseDateISO (s : String) : Option CalDate :=
  match s.data with
  | [y1, y2, y3, y4, '-', m1, m2, '-', d1, d2] =>
    match digitsVal [y1, y2, y3, y4], digitsVal [m1, m2], digitsVal [d1, d2] with
    | some y, some m, some d =>
      if 1 ≤ m ∧ m ≤ 12 ∧ 1 ≤ d ∧ d ≤ daysInMonth (y : Int) m then
        some { year := (y : Int), month := m, day := d }
      else none
    | _, _, _ => none
  | _ => none

/-! ## Route control flow and error handling -/

/-- An error thrown inside a handler: a SquareError carries the upstream
response body and a message; anything else only a message. -/
inductive JsError where
  | square (body : String) (message : String)
  | other (message : String)
  deriving Repr, DecidableEq

/-- The message property read by the weekly / monthly / yearly catch blocks. -/
def jsErrMessage : JsError → String
  | .square _ m => m
  | .other m => m

/-- The observable outcome of one sales-style route: HTTP status, whether any
upstream call was issued, the error text and details of an error response, and
the aggregate payload of a success response. -/
structure SalesRouteOutcome where
  status : Nat
  queriedUpstream : Bool
  errorText : Option String
  details : Option String
  payload : Option SalesResponse
  deriving Repr, DecidableEq

/-- A 400 validation outcome, produced before any upstream call. -/
def badRequest (msg : String) : SalesRouteOutcome :=
  { status := 400, queriedUpstream := false, errorText := some msg
    details := none, payload := none }

/-- The catch block of /api/sales and /api/refunds (index.js lines 682-695):
a SquareError maps to 502 with the upstream body attached, anything else
to a generic 500. -/
def salesDailyCatch : JsError → SalesRouteOutcome
  | .square body _ =>
    { status := 502, queriedUpstream := true, errorText := some "Square API error"
      details := some body, payload := none }
  | .other _ =>
    { status := 500, queriedUpstream := true
      errorText := some "Unexpected server error", details := none, payload := none }

/-- The catch block of /api/sales/weekly (index.js lines 760-765): every
error, SquareError included, maps to 500 with the error message as details. -/
def salesWeeklyCatch (e : JsError) : SalesRouteOutcome :=
  { status := 500, queriedUpstream := true, errorText := some "Weekly report failed"
    details := some (jsErrMessage e), payload := none }

/-- The catch block of /api/sales/monthly (index.js lines 827-832). -/
def salesMonthlyCatch (e : JsError) : SalesRouteOutcome :=
  { status := 500, queriedUpstream := true, errorText := some "Monthly report failed"
    details := some (jsErrMessage e), payload := none }

/-- JS Promise.all over settled results: the collected list, or the first
error; one rejected per-location fetch rejects the whole fan-out. -/
def promiseAll {α : Type} : List (Except JsError α) → Except JsError (List α)
  | [] => .ok []
  | .error e :: _ => .error e
  | .ok a :: rest => (promiseAll rest).map (fun l => a :: l)

/-- GET /api/sales (index.js lines 620-696): missing date then invalid date
each return 400 before any upstream call; then the locations fetch and the
per-location fan-out run, any failure reaching the catch block; on success the
assembled aggregate is returned with 200. -/
def salesDailyRoute (date : Option String)
    (locationsUp : Except JsError (List LocationInfo))
    (paymentsUp : String → Except JsError (List Payment)) : SalesRouteOutcome :=
  match date with
  | none => badRequest "Missing date=YYYY-MM-DD"
  | some d =>
    match parseDateISO d with
    | none => badRequest "Invalid date format"
    | some _ =>
      match locationsUp with
      | .error e => salesDailyCatch e
      | .ok locs =>
        match promiseAll (locs.map (fun loc => (paymentsUp loc.id).map (salesLocationEntryOf loc))) with
        | .error e => salesDailyCatch e
        | .ok per =>
          { status := 200, queriedUpstream := true, errorText := none
            details := none, payload := some (salesResponseOf per) }

/-- GET /api/sales/weekly (index.js lines 699-766): missing week then invalid
week date each return 400 before any upstream call; every later failure goes
through the weekly catch block (plain 500). -/
def salesWeeklyRoute (week : Option String)
    (locationsUp : Except JsError (List LocationInfo))
    (paymentsUp : String → Except JsError (List Payment)) : SalesRouteOutcome :=
  match week with
  | none => badRequest "Missing week=YYYY-MM-DD"
  | some d =>
    match parseDateISO d with
    | none => badRequest "Invalid week date"
    | some _ =>
      match locationsUp with
      | .error e => salesWeeklyCatch e
      | .ok locs =>
        match promiseAll (locs.map (fun loc => (paymentsUp loc.id).map (summaryLocationEntryOf loc))) with
        | .error e => salesWeeklyCatch e
        | .ok per =>
          { status := 200, queriedUpstream := true, errorText := none
            details := none, payload := some (salesResponseOf per) }

/-- GET /api/sales/monthly (index.js lines 769-833): only a missing month
returns 400; the parsed start of month is never validity-checked, so a
syntactically invalid month still reaches the upstream calls (with a null
begin instant). The upstream fetches receive the parse result. -/
def salesMonthlyRoute (month : Option String)
    (locationsUp : Option CalDate → Except JsError (List LocationInfo))
    (paymentsUp : String → Except JsError (List Payment)) : SalesRouteOutcome :=
  match month with
  | none => badRequest "Missing month=YYYY-MM"
  | some m =>
    let start := (parseDateISO (m ++ "-01")).map startOfMonthD
    match locationsUp start with
    | .error e => salesMonthlyCatch e
    | .ok locs =>
      match promiseAll (locs.map (fun loc => (paymentsUp loc.id).map (summaryLocationEntryOf loc))) with
      | .error e => salesMonthlyCatch e
      | .ok per =>
        { status := 200, queriedUpstream := true, errorText := none
          details := none, payload := some (salesResponseOf per) }

/-- GET /api/refunds (index.js lines 215-295): missing date then invalid date
each return 400 before any upstream call; the refund aggregation has the same
skip and money logic as the daily sales one, and the catch block is the
502-on-SquareError daily one. -/
def refundsDailyRoute (date : Option String)
    (locationsUp : Except JsError (List LocationInfo))
    (refundsUp : String → Except JsError (List Payment)) : SalesRouteOutcome :=
  match date with
  | none => badRequest "Missing date=YYYY-MM-DD"
  | some d =>
    match parseDateISO d with
    | none => badRequest "Invalid date format"
    | some _ =>
      match locationsUp with
      | .error e => salesDailyCatch e
      | .ok locs =>
        match promiseAll (locs.map (fun loc => (refundsUp loc.id).map (salesLocationEntryOf loc))) with
        | .error e => salesDailyCatch e
        | .ok per =>
          { status := 200, queriedUpstream := true, errorText := none
            details := none, payload := some (salesResponseOf per) }

/-- The observable outcome of the part_004 hourly routes: status, error text
and details, and on success the summary paired with the comparison field. -/
structure HourlyRouteOutcome where
  status : Nat
  errorText : Option String
  details : Option String
  body : Option (HourlySummary × Option HourlySummary)

/-- The catch block of the part_004 hourly routes (lines 67-80). -/
def hourlyCatch (e : JsError) : HourlyRouteOutcome :=
  match e with
  | .square body _ =>
    { status := 502, errorText := some "Square API error", details := some body
      body := none }
  | .other _ =>
    { status := 500, errorText := some "Unexpected server error", details := none
      body := none }

/-- GET /api/sales/hourly (part_004 lines 21-81): after validation, the base
summary is built for the target day; with comparePrev the prior summary is
built for the target day minus 7 days inside the same try block, so a failing
prior-period fetch propagates to the catch block instead of degrading to a
null comparison. summaryFor maps a civil day number to the outcome of
buildHourlySummaryForDate for that day. -/
def hourlyDailyRoute (dateStr : Option String) (comparePrev : Bool)
    (locationsUp : Except JsError (List LocationInfo))
    (summaryFor : Int → Except JsError HourlySummary) : HourlyRouteOutcome :=
  match dateStr with
  | none =>
    { status := 400, errorText := some "Missing date=YYYY-MM-DD", details := none
      body := none }
  | some d =>
    match parseDateISO d with
    | none =>
      { status := 400, errorText := some "Invalid date format", details := none
        body := none }
    | some target =>
      match locationsUp with
      | .error e => hourlyCatch e
      | .ok _ =>
        match summaryFor (daysFromCivil target) with
        | .error e => hourlyCatch e
        | .ok base =>
          if comparePrev then
            match summaryFor (hourlyDailyPrevDays target) with
            | .error e => hourlyCatch e
            | .ok prev =>
              { status := 200, errorText := none, details := none
                body := some (base, some prev) }
          else
            { status := 200, errorText := none, details := none
              body := some (base, none) }

/-! ## General helper lemmas -/

theorem foldl_add_sum {M α : Type} [AddCommMonoid M] (f : α → M) :
    ∀ (l : List α) (a : M), l.foldl (fun s x => s + f x) a = a + (l.map f).sum := by
  intro l
  induction l with
  | nil => intro a; simp
  | cons x xs ih =>
    intro a
    simp only [List.foldl_cons, List.map_cons, List.sum_cons, ih, add_assoc]

theorem f64roundNat_of_le (a : Nat) (h : a ≤ 2 ^ 53) : f64roundNat a = a := by
  unfold f64roundNat
  rcases Nat.eq_or_lt_of_le h with heq | hlt
  · subst heq
    have hlog : Nat.log2 (2 ^ 53) = 53 := by
      rw [Nat.log2_eq_log_two]
      exact Nat.log_pow (by norm_num : (1:ℕ) < 2) 53
    simp only [hlog]
    norm_num
  · by_cases h0 : a = 0
    · simp [h0]
    · have hlog : Nat.log2 a < 53 := (Nat.log2_lt h0).mpr hlt
      have : Nat.log2 a ≤ 52 := by omega
      simp [h0, this]

theorem f64ofInt_of_natAbs_le (n : Int) (h : n.natAbs ≤ 2 ^ 53) : f64ofInt n = n := by
  unfold f64ofInt
  rw [f64roundNat_of_le _ h]
  split <;> omega

theorem f64ofInt_rounds_past_53_bits :
    f64ofInt 9007199254740993 = 9007199254740992 := by
  have hlog : Nat.log2 9007199254740993 = 53 := by
    rw [Nat.log2_eq_log_two]
    apply Nat.log_eq_of_pow_le_of_lt_pow <;> norm_num
  have h1 : f64roundNat 9007199254740993 = 9007199254740992 := by
    unfold f64roundNat
    simp only [hlog]
    norm_num
  unfold f64ofInt
  norm_num [h1]

/-! ## Concrete records used by witnesses and counterexamples -/

/-- A completed 500-cent payment at location A. -/
def pA1 : Payment :=
  { status := some "COMPLETED", amount := some 500, createdAt := some 0, locationId := "A" }

/-- A completed 750-cent payment at location A. -/
def pA2 : Payment :=
  { status := some "COMPLETED", amount := some 750, createdAt := some 0, locationId := "A" }

/-- A completed 250-cent payment at location A. -/
def pA3 : Payment :=
  { status := some "COMPLETED", amount := some 250, createdAt := some 0, locationId := "A" }

/-- A completed 1000-cent payment at location B. -/
def pB1 : Payment :=
  { status := some "COMPLETED", amount := some 1000, createdAt := some 0, locationId := "B" }

/-- Location A. -/
def locA : LocationInfo := { id := "A", name := some "Location A" }

/-- Location B. -/
def locB : LocationInfo := { id := "B", name := some "Location B" }

/-- The upstream payment lists of the end-to-end scenario. -/
def scenarioPayments : String → List Payment := fun id =>
  if id = "A" then [pA1, pA2, pA3] else if id = "B" then [pB1] else []

/-- A record with a missing status field. -/
def noStatusPayment : Payment :=
  { status := none, amount := some 500, createdAt := some 0, locationId := "A" }

/-- A record with status FAILED. -/
def failedPayment : Payment :=
  { status := some "FAILED", amount := some 1234, createdAt := some 0, locationId := "A" }

/-- A payment whose 64-bit minor-unit amount exceeds 2 to the 53rd. -/
def hugePayment : Payment :=
  { status := some "COMPLETED", amount := some 9007199254740993, createdAt := some 0
    locationId := "A" }

/-! ## Claims C1 - C3 -/

/-- Claim C1: the daily sales pipeline, on a day with three COMPLETED payments
of 500, 750 and 250 minor units at location A and one COMPLETED payment of
1000 minor units at location B, reports grandTotal 25.00, grandCount 4, and
per-location entries A with total 15.00 and count 3 and B with total 10.00 and
count 1, with a 200 response. -/
theorem claim_C1_daily_scenario :
    salesDailyRoute (some "2025-10-12") (.ok [locA, locB])
        (fun id => .ok (scenarioPayments id)) =
      { status := 200, queriedUpstream := true, errorText := none, details := none
        payload := some
          { grandTotal := 25, grandCount := 4, locationsCount := 2
            locations := [
              { locationId := "A", locationName := "Location A", total := 15, count := 3 },
              { locationId := "B", locationName := "Location B", total := 10, count := 1 }] } } := by
  have e1 : f64ofInt 500 = 500 := f64ofInt_of_natAbs_le _ (by norm_num)
  have e2 : f64ofInt 750 = 750 := f64ofInt_of_natAbs_le _ (by norm_num)
  have e3 : f64ofInt 250 = 250 := f64ofInt_of_natAbs_le _ (by norm_num)
  have e4 : f64ofInt 1000 = 1000 := f64ofInt_of_natAbs_le _ (by norm_num)
  have hparse : parseDateISO "2025-10-12" = some { year := 2025, month := 10, day := 12 } := by
    decide
  simp only [salesDailyRoute, hparse, promiseAll, List.map_cons, List.map_nil, Except.map]
  simp [salesResponseOf, salesLocationEntryOf, aggregateForLocation, paymentSkipDaily,
    amountCentsOf, jsOrStr, scenarioPayments, pA1, pA2, pA3, pB1, locA, locB,
    e1, e2, e3, e4]
  norm_num

/-- Claim C2, corrected: the daily normalizer skips exactly the records whose
status is present, truthy and not COMPLETED, so a record with missing status
is not rejected there; but the summary normalizer skips every record whose
status is not exactly COMPLETED, a missing status included. A FAILED record
contributes zero to every total and every count in both. -/
theorem claim_C2_status_filtering :
    (∀ p : Payment,
        paymentSkipDaily p = true ↔ ∃ s, p.status = some s ∧ s ≠ "" ∧ s ≠ "COMPLETED") ∧
    (∀ p : Payment, p.status = none → paymentSkipDaily p = false) ∧
    (∀ p : Payment, paymentSkipSummary p = true ↔ p.status ≠ some "COMPLETED") ∧
    (∀ (p : Payment) (l1 l2 : List Payment), p.status = some "FAILED" →
        aggregateForLocation (l1 ++ p :: l2) = aggregateForLocation (l1 ++ l2) ∧
        aggregateForLocationSummary (l1 ++ p :: l2) = aggregateForLocationSummary (l1 ++ l2)) := by
  refine ⟨?_, ?_, ?_, ?_⟩
  · intro p
    unfold paymentSkipDaily
    cases hs : p.status with
    | none => simp
    | some s =>
      simp only [Bool.and_eq_true, decide_eq_true_eq, ne_eq, Option.some.injEq]
      constructor
      · rintro ⟨h1, h2⟩
        exact ⟨s, rfl, by simpa using h1, by simpa using h2⟩
      · rintro ⟨s2, hs2, h1, h2⟩
        cases hs2
        exact ⟨by simpa using h1, by simpa using h2⟩
  · intro p h
    unfold paymentSkipDaily
    rw [h]
  · intro p
    unfold paymentSkipSummary
    simp
  · intro p l1 l2 hp
    have hskipD : paymentSkipDaily p = true := by
      unfold paymentSkipDaily
      rw [hp]
      decide
    have hskipS : paymentSkipSummary p = true := by
      unfold paymentSkipSummary
      rw [hp]
      decide
    constructor
    · unfold aggregateForLocation
      rw [List.foldl_append, List.foldl_append, List.foldl_cons, hskipD]
      simp
    · unfold aggregateForLocationSummary
      rw [List.foldl_append, List.foldl_append, List.foldl_cons, hskipS]
      simp

/-- Witness for claim C2 at concrete records: the missing-status record is not
skipped by the daily normalizer, and a FAILED record leaves the summary
aggregation of a one-element list unchanged. -/
theorem claim_C2_witness :
    paymentSkipDaily noStatusPayment = false ∧
    aggregateForLocationSummary ([] ++ failedPayment :: []) =
      aggregateForLocationSummary ([] ++ []) :=
  ⟨claim_C2_status_filtering.2.1 noStatusPayment rfl,
   (claim_C2_status_filtering.2.2.2 failedPayment [] [] rfl).2⟩

/-- Counterexample to claim C2 as stated: a record with a missing status IS
rejected by the summary money normalizer (aggregateForLocationSummary), so the
normalizers do not skip exactly the records whose status is present and not
COMPLETED. -/
theorem claim_C2_counterexample :
    noStatusPayment.status = none ∧
    paymentSkipSummary noStatusPayment = true ∧
    aggregateForLocationSummary [noStatusPayment] = { totalCents := 0, count := 0 } := by
  refine ⟨rfl, by decide, ?_⟩
  unfold aggregateForLocationSummary
  simp [paymentSkipSummary, noStatusPayment]

/-- Claim C3, corrected: the normalizer divides the minor-unit amount by 100
exactly and treats a missing amount as zero; a 64-bit integer amount is put
through the JS Number conversion before the divide, which is lossless only for
magnitudes up to 2 to the 53rd. -/
theorem claim_C3_money_normalization :
    (∀ (p : Payment) (n : Int), p.amount = some n → n.natAbs ≤ 2 ^ 53 →
        amountCentsOf p = n ∧ paymentMajorAmount p = (n : ℚ) / 100) ∧
    (∀ p : Payment, p.amount = none →
        amountCentsOf p = 0 ∧ paymentMajorAmount p = 0) := by
  constructor
  · intro p n hp hn
    have h1 : amountCentsOf p = n := by
      unfold amountCentsOf
      rw [hp]
      exact f64ofInt_of_natAbs_le n hn
    exact ⟨h1, by unfold paymentMajorAmount; rw [h1]⟩
  · intro p hp
    have h1 : amountCentsOf p = 0 := by
      unfold amountCentsOf
      rw [hp]
      rfl
    refine ⟨h1, ?_⟩
    unfold paymentMajorAmount
    rw [h1]
    norm_num

/-- Witness for claim C3 at concrete records: the 500-cent completed payment
normalizes to 5.00 exactly, and a record with no amount normalizes to zero. -/
theorem claim_C3_witness :
    (amountCentsOf pA1 = 500 ∧ paymentMajorAmount pA1 = (500 : ℚ) / 100) ∧
    (amountCentsOf { status := none, amount := none, createdAt := none, locationId := "A" } = 0 ∧
      paymentMajorAmount { status := none, amount := none, createdAt := none, locationId := "A" } = 0) :=
  ⟨claim_C3_money_normalization.1 pA1 500 rfl (by norm_num),
   claim_C3_money_normalization.2 _ rfl⟩

/-- Counterexample to claim C3 as stated: the amount 2 pow 53 plus 1 minor
units, a value of the signed 64-bit range, is changed by the Number conversion
before the divide, so 64-bit amounts are not handled without precision loss. -/
theorem claim_C3_counterexample :
    hugePayment.amount = some 9007199254740993 ∧
    amountCentsOf hugePayment = 9007199254740992 ∧
    amountCentsOf hugePayment ≠ 9007199254740993 := by
  have h : amountCentsOf hugePayment = 9007199254740992 := by
    unfold amountCentsOf hugePayment
    simpa using f64ofInt_rounds_past_53_bits
  exact ⟨rfl, h, by rw [h]; norm_num⟩

/-! ## Claim C7 -/

/-- Claim C7: the prior-period shift maps a day to the same date minus 7 civil
days, which preserves the weekday; a week to both bounds minus 7 days; a month
to the previous calendar month re-anchored to that month's own first and last
day (so for March 2025 the prior period is February 1 to February 28, a range
of a different length); and a year to the previous calendar year re-anchored
to its own bounds. -/
theorem claim_C7_prior_period_shift :
    (∀ d : CalDate,
        hourlyDailyPrevDays d = daysFromCivil d - 7 ∧
        weekdayOfDays (hourlyDailyPrevDays d) = weekdayOf d) ∧
    (∀ s e : Int, hourlyWeeklyPrevRange s e = (s - 7, e - 7)) ∧
    (∀ (y : Int) (m : Nat),
        hourlyMonthlyPrevRange { year := y, month := m, day := 1 } =
          ({ year := if m = 1 then y - 1 else y
             month := if m = 1 then 12 else m - 1, day := 1 },
           { year := if m = 1 then y - 1 else y
             month := if m = 1 then 12 else m - 1
             day := daysInMonth (if m = 1 then y - 1 else y)
               (if m = 1 then 12 else m - 1) })) ∧
    (hourlyMonthlyPrevRange { year := 2025, month := 3, day := 1 } =
      ({ year := 2025, month := 2, day := 1 }, { year := 2025, month := 2, day := 28 })) ∧
    (∀ y : Int, hourlyYearlyPrevRange { year := y, month := 1, day := 1 } =
        ({ year := y - 1, month := 1, day := 1 }, { year := y - 1, month := 12, day := 31 })) := by
  refine ⟨?_, ?_, ?_, ?_, ?_⟩
  · intro d
    refine ⟨rfl, ?_⟩
    unfold hourlyDailyPrevDays weekdayOf weekdayOfDays
    have : (daysFromCivil d - 7 + 3) % 7 = (daysFromCivil d + 3) % 7 := by omega
    rw [this]
  · intro s e
    rfl
  · intro y m
    unfold hourlyMonthlyPrevRange startOfMonthD endOfMonthD minusOneMonthLuxon
    by_cases h : m = 1 <;> simp [h]
  · decide
  · intro y
    unfold hourlyYearlyPrevRange startOfYearD endOfYearD minusOneYearLuxon
    simp

/-! ## Claims C8 - C10 -/

/-- A SquareError with an upstream body and a message. -/
def squareBoom : JsError := .square "upstream-error-body" "Square API error: 502"

/-- The zero timezone-offset function. -/
def off0 : Int → Int := fun _ => 0

/-- The hourly summary of an empty location list with no records. -/
def emptyHourlySummary : HourlySummary :=
  buildHourlySummaryForRange off0 [] (fun _ => [])

/-- A summary fetcher that succeeds for 2025-10-12 and throws a SquareError
for every other day, in particular for the prior-period day. -/
def failingPrevFetch : Int → Except JsError HourlySummary :=
  fun n =>
    if n = daysFromCivil { year := 2025, month := 10, day := 12 } then
      .ok emptyHourlySummary
    else .error squareBoom

/-- Claim C8, corrected: in the part_004 daily hourly route the prior-period
fetch runs inside the same try block as the primary one, so its failure
propagates to the catch block and fails the whole request (502 for a
SquareError, 500 otherwise) instead of degrading to a null comparison; the
comparison is null only when comparePrev is off, and a successful prior fetch
is returned as the comparison. -/
theorem claim_C8_comparison_failure :
    (∀ (d : String) (target : CalDate) (locs : List LocationInfo)
        (summaryFor : Int → Except JsError HourlySummary) (base : HourlySummary),
        parseDateISO d = some target →
        summaryFor (daysFromCivil target) = .ok base →
        (∀ e, summaryFor (hourlyDailyPrevDays target) = .error e →
            hourlyDailyRoute (some d) true (.ok locs) summaryFor = hourlyCatch e) ∧
        (∀ prev, summaryFor (hourlyDailyPrevDays target) = .ok prev →
            hourlyDailyRoute (some d) true (.ok locs) summaryFor =
              { status := 200, errorText := none, details := none
                body := some (base, some prev) }) ∧
        hourlyDailyRoute (some d) false (.ok locs) summaryFor =
          { status := 200, errorText := none, details := none
            body := some (base, none) }) ∧
    (∀ e, (hourlyCatch e).status ≠ 200 ∧ (hourlyCatch e).body = none) := by
  constructor
  · intro d target locs summaryFor base hparse hbase
    refine ⟨?_, ?_, ?_⟩
    · intro e he
      simp only [hourlyDailyRoute, hparse, hbase, he, if_true]
    · intro prev hprev
      simp only [hourlyDailyRoute, hparse, hbase, hprev, if_true]
    · simp only [hourlyDailyRoute, hparse, hbase, if_false, Bool.false_eq_true]
  · intro e
    cases e <;> simp [hourlyCatch]

/-- Witness for claim C8: with the concrete failing prior-period fetcher, the
route outcome is exactly the catch outcome of the SquareError. -/
theorem claim_C8_witness :
    hourlyDailyRoute (some "2025-10-12") true (.ok []) failingPrevFetch =
      hourlyCatch squareBoom :=
  (claim_C8_comparison_failure.1 "2025-10-12" { year := 2025, month := 10, day := 12 }
    [] failingPrevFetch emptyHourlySummary (by decide) rfl).1 squareBoom rfl

/-- Counterexample to claim C8 as stated: with comparison enabled and a
failing prior-period fetch, the daily hourly route responds 502 with no body,
not 200 with a null comparison. -/
theorem claim_C8_counterexample :
    (hourlyDailyRoute (some "2025-10-12") true (.ok []) failingPrevFetch).status = 502 ∧
    (hourlyDailyRoute (some "2025-10-12") true (.ok []) failingPrevFetch).body = none :=
  ⟨rfl, rfl⟩

/-- Claim C9, corrected: a missing period value is rejected with 400 before
any upstream call in every handler, and the daily handlers also reject a
syntactically invalid value with 400 before any upstream call; but the monthly
sales handler never validity-checks the parsed month, so any present value,
valid or not, reaches the upstream query. -/
theorem claim_C9_invalid_period :
    (∀ (lu : Option CalDate → Except JsError (List LocationInfo))
        (pu : String → Except JsError (List Payment)),
        salesMonthlyRoute none lu pu = badRequest "Missing month=YYYY-MM") ∧
    (∀ (lu : Except JsError (List LocationInfo))
        (pu : String → Except JsError (List Payment)),
        refundsDailyRoute none lu pu = badRequest "Missing date=YYYY-MM-DD" ∧
        salesDailyRoute none lu pu = badRequest "Missing date=YYYY-MM-DD") ∧
    (∀ (d : String) (lu : Except JsError (List LocationInfo))
        (pu : String → Except JsError (List Payment)), parseDateISO d = none →
        refundsDailyRoute (some d) lu pu = badRequest "Invalid date format" ∧
        salesDailyRoute (some d) lu pu = badRequest "Invalid date format") ∧
    (∀ msg, (badRequest msg).status = 400 ∧ (badRequest msg).queriedUpstream = false) ∧
    (∀ (m : String) (lu : Option CalDate → Except JsError (List LocationInfo))
        (pu : String → Except JsError (List Payment)),
        (salesMonthlyRoute (some m) lu pu).queriedUpstream = true) := by
  refine ⟨fun lu pu => rfl, fun lu pu => ⟨rfl, rfl⟩, ?_, fun msg => ⟨rfl, rfl⟩, ?_⟩
  · intro d lu pu hparse
    constructor
    · simp only [refundsDailyRoute, hparse]
    · simp only [salesDailyRoute, hparse]
  · intro m lu pu
    simp only [salesMonthlyRoute]
    rcases lu ((parseDateISO (m ++ "-01")).map startOfMonthD) with e | locs
    · cases e <;> rfl
    · rcases h : promiseAll (locs.map (fun loc => (pu loc.id).map (summaryLocationEntryOf loc))) with e | per
      · simp only [h]
        cases e <;> rfl
      · simp only [h]

/-- Witness for claim C9: the refunds route rejects a malformed date with 400
and no upstream query. -/
theorem claim_C9_witness :
    refundsDailyRoute (some "2025-13-40") (.ok []) (fun _ => .ok []) =
      badRequest "Invalid date format" :=
  (claim_C9_invalid_period.2.2.1 "2025-13-40" (.ok []) (fun _ => .ok []) (by decide)).1

/-- Counterexample to claim C9 as stated: the monthly sales handler, given the
syntactically invalid month 2025-13, does not return 400 and does issue the
upstream query. -/
theorem claim_C9_counterexample :
    parseDateISO ("2025-13" ++ "-01") = none ∧
    (salesMonthlyRoute (some "2025-13") (fun _ => .ok []) (fun _ => .ok [])).status = 200 ∧
    (salesMonthlyRoute (some "2025-13") (fun _ => .ok []) (fun _ => .ok [])).queriedUpstream
      = true :=
  ⟨by decide, rfl, rfl⟩

/-- Claim C10, corrected: a failing locations fetch or any failing concurrent
per-location fetch makes the whole request take the catch path, which carries
no aggregate payload; the daily sales and refunds catch maps a SquareError to
502 with the upstream body attached, but the weekly (and monthly, yearly)
summary catch returns 500 with only the error message for every error,
SquareError included. A fan-out fails exactly when one of its fetches fails. -/
theorem claim_C10_upstream_failure :
    (∀ (d : String) (target : CalDate) (pu : String → Except JsError (List Payment)) e,
        parseDateISO d = some target →
        salesDailyRoute (some d) (.error e) pu = salesDailyCatch e) ∧
    (∀ (d : String) (target : CalDate) (locs : List LocationInfo)
        (pu : String → Except JsError (List Payment)) e,
        parseDateISO d = some target →
        promiseAll (locs.map (fun loc => (pu loc.id).map (salesLocationEntryOf loc)))
          = .error e →
        salesDailyRoute (some d) (.ok locs) pu = salesDailyCatch e) ∧
    (∀ b m, salesDailyCatch (.square b m) =
        { status := 502, queriedUpstream := true, errorText := some "Square API error"
          details := some b, payload := none }) ∧
    (∀ e, (salesDailyCatch e).payload = none) ∧
    (∀ (d : String) (target : CalDate) (locs : List LocationInfo)
        (pu : String → Except JsError (List Payment)) e,
        parseDateISO d = some target →
        promiseAll (locs.map (fun loc => (pu loc.id).map (summaryLocationEntryOf loc)))
          = .error e →
        salesWeeklyRoute (some d) (.ok locs) pu = salesWeeklyCatch e) ∧
    (∀ e, (salesWeeklyCatch e).status = 500 ∧ (salesWeeklyCatch e).payload = none) ∧
    (∀ (l : List (Except JsError (List Payment))),
        (∃ e, promiseAll l = .error e) ↔ ∃ x ∈ l, ∃ e, x = .error e) := by
  refine ⟨?_, ?_, fun b m => rfl, ?_, ?_, fun e => ⟨rfl, rfl⟩, ?_⟩
  · intro d target pu e hparse
    simp only [salesDailyRoute, hparse]
  · intro d target locs pu e hparse hall
    simp only [salesDailyRoute, hparse, hall]
  · intro e
    cases e <;> rfl
  · intro d target locs pu e hparse hall
    simp only [salesWeeklyRoute, hparse, hall]
  · intro l
    induction l with
    | nil => simp [promiseAll]
    | cons x xs ih =>
      cases x with
      | error e => simp [promiseAll]
      | ok a =>
        simp only [promiseAll]
        constructor
        · rintro ⟨e, he⟩
          rcases h : promiseAll xs with e2 | l2
          · rcases ih.mp ⟨e2, h⟩ with ⟨x, hx, he2⟩
            exact ⟨x, List.mem_cons_of_mem _ hx, he2⟩
          · rw [h] at he
            simp [Except.map] at he
        · rintro ⟨x, hx, e2, he2⟩
          rcases List.mem_cons.mp hx with h1 | h1
          · rw [he2] at h1
            cases h1
          · rcases ih.mpr ⟨x, h1, e2, he2⟩ with ⟨e3, he3⟩
            rw [he3]
            exact ⟨e3, rfl⟩

/-- Witness for claim C10: one failing per-location fetch fails the daily
sales request with the 502 catch outcome. -/
theorem claim_C10_witness :
    salesDailyRoute (some "2025-10-12") (.ok [locA]) (fun _ => .error squareBoom) =
      salesDailyCatch squareBoom :=
  claim_C10_upstream_failure.2.1 "2025-10-12" { year := 2025, month := 10, day := 12 }
    [locA] (fun _ => .error squareBoom) squareBoom (by decide) rfl

/-- Counterexample to claim C10 as stated: an upstream SquareError in the
weekly sales route yields 500 with the error message, not 502 with the
upstream error body. -/
theorem claim_C10_counterexample :
    (salesWeeklyRoute (some "2025-10-12") (.error squareBoom) (fun _ => .ok [])).status
      = 500 ∧
    (salesWeeklyRoute (some "2025-10-12") (.error squareBoom) (fun _ => .ok [])).status
      ≠ 502 ∧
    (salesWeeklyRoute (some "2025-10-12") (.error squareBoom) (fun _ => .ok [])).details
      = some "Square API error: 502" ∧
    (salesWeeklyRoute (some "2025-10-12") (.error squareBoom) (fun _ => .ok [])).details
      ≠ some "upstream-error-body" := by
  refine ⟨rfl, by decide, rfl, by decide⟩

/-! ## Helper lemmas for the aggregation claims -/

/-- The all-locations total a bucket reports, 0 when the bucket is absent. -/
def optBucketTotal : Option HourBucket → ℚ
  | some b => b.totalAllLocations
  | none => 0

theorem mem_summaryHours (h : Nat) : h ∈ summaryHours ↔ 5 ≤ h ∧ h ≤ 20 := by
  constructor
  · intro hx
    rcases List.mem_map.mp hx with ⟨i, hi, hE⟩
    have hi2 : i < 16 := List.mem_range.mp hi
    have hE2 : i + 5 = h := hE
    omega
  · rintro ⟨h5, h20⟩
    refine List.mem_map.mpr ⟨h - 5, List.mem_range.mpr (by omega), ?_⟩
    show h - 5 + 5 = h
    omega

theorem summaryHours_nodup : summaryHours.Nodup := by
  refine List.Nodup.map ?_ (List.nodup_range 16)
  intro a b hab
  have hab2 : a + 5 = b + 5 := hab
  omega

theorem sum_map_update (l : List Nat) (f g : Nat → ℚ) (h : Nat) (d : ℚ)
    (hnd : l.Nodup) (hmem : h ∈ l) (hfg : g h = f h + d)
    (hother : ∀ x, x ≠ h → g x = f x) :
    (l.map g).sum = (l.map f).sum + d := by
  induction l with
  | nil => cases hmem
  | cons a rest ih =>
    rcases List.nodup_cons.mp hnd with ⟨hna, hndr⟩
    rcases List.mem_cons.mp hmem with rfl | hmr
    · have hrest : rest.map g = rest.map f := by
        apply List.map_congr_left
        intro x hx
        exact hother x (fun hxa => hna (hxa ▸ hx))
      simp only [List.map_cons, List.sum_cons, hfg, hrest]
      ring
    · have hga : g a = f a := hother a (fun hah => hna (hah ▸ hmr))
      simp only [List.map_cons, List.sum_cons, hga, ih hndr hmr]
      ring

theorem nested_foldl_eq_locPairs {σ : Type} (g : String → σ → Payment → σ)
    (locs : List LocationInfo) (fetch : String → List Payment) (st : σ) :
    locs.foldl (fun s loc => (fetch loc.id).foldl (g loc.id) s) st
      = (locPairs locs fetch).foldl (fun s pr => g pr.1 s pr.2) st := by
  induction locs generalizing st with
  | nil => rfl
  | cons a rest ih =>
    simp only [List.foldl_cons, locPairs, List.flatMap_cons, List.foldl_append,
      List.foldl_map]
    exact ih _

theorem foldl_state_id {σ α : Type} : ∀ (l : List α) (s : σ),
    l.foldl (fun s _ => s) s = s := by
  intro l
  induction l with
  | nil => intro s; rfl
  | cons a rest ih => intro s; exact ih s

theorem initHourlyBuckets_sum_zero (locs : List LocationInfo) :
    (summaryHours.map (fun h => optBucketTotal (initHourlyBuckets locs h))).sum = 0 := by
  apply List.sum_eq_zero
  intro x hx
  rcases List.mem_map.mp hx with ⟨h, hh, rfl⟩
  rcases (mem_summaryHours h).mp hh with ⟨h5, h20⟩
  simp [initHourlyBuckets, h5, h20, optBucketTotal, emptyHourBucket]

theorem hourlyRecordStep_sum_inv (off : Int → Int) (locId : String)
    (st : HourlyAccum) (p : Payment)
    (hInv : (summaryHours.map (fun h => optBucketTotal (st.hourly h))).sum
      = (st.totalCents : ℚ) / 100) :
    (summaryHours.map (fun h =>
        optBucketTotal ((hourlyRecordStep off locId st p).hourly h))).sum
      = (((hourlyRecordStep off locId st p).totalCents : ℚ)) / 100 := by
  unfold hourlyRecordStep
  by_cases hskip : paymentSkipDaily p
  · simpa [hskip] using hInv
  · simp only [hskip, Bool.false_eq_true, if_false]
    cases hc : p.createdAt with
    | none => simpa using hInv
    | some t =>
      simp only []
      by_cases hrange : localHour off t < 5 ∨ 20 < localHour off t
      · simpa [hrange] using hInv
      · simp only [hrange, if_false]
        cases hb : st.hourly (localHour off t) with
        | none => simpa using hInv
        | some b =>
          simp only []
          have h5 : 5 ≤ localHour off t := by omega
          have h20 : localHour off t ≤ 20 := by omega
          have hupd : (summaryHours.map (fun h =>
              optBucketTotal (if h = localHour off t
                then some (hourBucketAdd b locId (amountCentsOf p))
                else st.hourly h))).sum
              = (summaryHours.map (fun h => optBucketTotal (st.hourly h))).sum
                + (amountCentsOf p : ℚ) / 100 := by
            apply sum_map_update _ _ _ (localHour off t) _ summaryHours_nodup
              ((mem_summaryHours _).mpr ⟨h5, h20⟩)
            · simp [hb, optBucketTotal, hourBucketAdd]
            · intro x hx
              simp [hx]
          rw [hupd, hInv]
          push_cast
          ring

theorem hourly_pairs_fold_sum_inv (off : Int → Int) :
    ∀ (ps : List (String × Payment)) (st : HourlyAccum),
      (summaryHours.map (fun h => optBucketTotal (st.hourly h))).sum
        = (st.totalCents : ℚ) / 100 →
      (summaryHours.map (fun h =>
          optBucketTotal ((ps.foldl (fun s pr => hourlyRecordStep off pr.1 s pr.2) st).hourly h))).sum
        = (((ps.foldl (fun s pr => hourlyRecordStep off pr.1 s pr.2) st).totalCents : ℚ)) / 100 := by
  intro ps
  induction ps with
  | nil => intro st h; simpa using h
  | cons pr rest ih =>
    intro st h
    exact ih _ (hourlyRecordStep_sum_inv off pr.1 st pr.2 h)

theorem assoc_map_sum_div {α : Type} (f : α → Int) (l : List α) :
    (l.map (fun x => ((f x : Int) : ℚ) / 100)).sum = (((l.map f).sum : Int) : ℚ) / 100 := by
  induction l with
  | nil => simp
  | cons a rest ih =>
    simp only [List.map_cons, List.sum_cons, ih]
    push_cast
    ring

theorem mapUpsert_measure {β : Type} (meas : β → Int) (k : String) (init : β)
    (f : β → β) (d : Int) (hf : ∀ b, meas (f b) = meas b + d) (h0 : meas init = 0) :
    ∀ m : List (String × β),
      ((mapUpsert k init f m).map (fun kv => meas kv.2)).sum
        = (m.map (fun kv => meas kv.2)).sum + d := by
  intro m
  induction m with
  | nil => simp [mapUpsert, hf, h0]
  | cons kv rest ih =>
    by_cases hk : kv.1 = k
    · simp only [mapUpsert, hk, if_true, List.map_cons, List.sum_cons, hf]
      ring
    · simp only [mapUpsert, hk, if_false, List.map_cons, List.sum_cons, ih]
      ring

/-- The cents total held by an items map. -/
def assocCents (m : List (String × ItemBucket)) : Int :=
  (m.map (fun kv => kv.2.totalCents)).sum

/-- The cents total held by the per-location items maps. -/
def perLocCents (pl : List (String × LocItemsAccum)) : Int :=
  (pl.map (fun kv => assocCents kv.2.itemsMap)).sum

theorem assocCents_orderItemsFold (lis : List LineItem) :
    ∀ m : List (String × ItemBucket),
      assocCents (orderItemsFold m lis) = assocCents m + (lis.map lineItemCents).sum := by
  induction lis with
  | nil => intro m; simp [orderItemsFold]
  | cons li rest ih =>
    intro m
    have hstep : assocCents (mapUpsert (lineItemKey li) (initItemBucket li)
        (bumpItemBucket li) m) = assocCents m + lineItemCents li := by
      unfold assocCents
      have hf : ∀ b : ItemBucket,
          (bumpItemBucket li b).totalCents = b.totalCents + lineItemCents li :=
        fun b => rfl
      have h0 : (initItemBucket li).totalCents = 0 := rfl
      exact mapUpsert_measure (fun b => b.totalCents) (lineItemKey li)
        (initItemBucket li) (bumpItemBucket li) (lineItemCents li) hf h0 m
    have hfold : orderItemsFold m (li :: rest)
        = orderItemsFold (mapUpsert (lineItemKey li) (initItemBucket li)
            (bumpItemBucket li) m) rest := rfl
    rw [hfold, ih, hstep]
    simp only [List.map_cons, List.sum_cons]
    ring

theorem itemOrderStep_inv (locName : String → String)
    (st : List (String × LocItemsAccum) × List (String × ItemBucket)) (o : UpOrder)
    (h : perLocCents st.1 = assocCents st.2) :
    perLocCents (itemOrderStep locName st o).1 = assocCents (itemOrderStep locName st o).2 := by
  have hout : perLocCents (mapUpsert (jsOrStr o.locationId "UNKNOWN")
      (LocItemsAccum.mk (jsOrStr o.locationId "UNKNOWN")
        (locName (jsOrStr o.locationId "UNKNOWN")) [])
      (fun lb => { lb with itemsMap := orderItemsFold lb.itemsMap o.lineItems }) st.1)
      = perLocCents st.1 + (o.lineItems.map lineItemCents).sum := by
    unfold perLocCents
    have hf : ∀ lb : LocItemsAccum,
        assocCents ({ lb with itemsMap := orderItemsFold lb.itemsMap o.lineItems }
          : LocItemsAccum).itemsMap
          = assocCents lb.itemsMap + (o.lineItems.map lineItemCents).sum :=
      fun lb => assocCents_orderItemsFold o.lineItems lb.itemsMap
    have h0 : assocCents (LocItemsAccum.mk (jsOrStr o.locationId "UNKNOWN")
        (locName (jsOrStr o.locationId "UNKNOWN")) []).itemsMap = 0 := rfl
    exact mapUpsert_measure (fun lb => assocCents lb.itemsMap)
      (jsOrStr o.locationId "UNKNOWN")
      (LocItemsAccum.mk (jsOrStr o.locationId "UNKNOWN")
        (locName (jsOrStr o.locationId "UNKNOWN")) [])
      (fun lb => { lb with itemsMap := orderItemsFold lb.itemsMap o.lineItems })
      ((o.lineItems.map lineItemCents).sum) hf h0 st.1
  have hov : assocCents (orderItemsFold st.2 o.lineItems)
      = assocCents st.2 + (o.lineItems.map lineItemCents).sum :=
    assocCents_orderItemsFold o.lineItems st.2
  have h1 : perLocCents (itemOrderStep locName st o).1
      = perLocCents st.1 + (o.lineItems.map lineItemCents).sum := hout
  have h2 : assocCents (itemOrderStep locName st o).2
      = assocCents st.2 + (o.lineItems.map lineItemCents).sum := hov
  rw [h1, h2, h]

theorem items_fold_inv (locName : String → String) :
    ∀ (orders : List UpOrder)
      (st : List (String × LocItemsAccum) × List (String × ItemBucket)),
      perLocCents st.1 = assocCents st.2 →
      perLocCents (orders.foldl (itemOrderStep locName) st).1
        = assocCents (orders.foldl (itemOrderStep locName) st).2 := by
  intro orders
  induction orders with
  | nil => intro st h; simpa using h
  | cons o rest ih =>
    intro st h
    exact ih _ (itemOrderStep_inv locName st o h)

theorem sortByTotalDesc_sum (l : List ItemEntry) :
    ((sortByTotalDesc l).map (fun it => it.total)).sum
      = (l.map (fun it => it.total)).sum :=
  List.Perm.sum_eq (List.Perm.map _ (List.mergeSort_perm l _))

theorem sorted_entries_total_sum (m : List (String × ItemBucket)) :
    ((sortByTotalDesc (m.map (fun ib => itemEntryOf ib.2))).map (fun it => it.total)).sum
      = ((assocCents m : Int) : ℚ) / 100 := by
  rw [sortByTotalDesc_sum, List.map_map]
  show (m.map (fun ib => ((ib.2.totalCents : Int) : ℚ) / 100)).sum = _
  exact assoc_map_sum_div (fun ib => ib.2.totalCents) m

theorem loc_entry_total_eq (m : List (String × ItemBucket)) :
    (sortByTotalDesc (m.map (fun ib => itemEntryOf ib.2))).foldl
        (fun s it => s + it.total) 0
      = ((assocCents m : Int) : ℚ) / 100 := by
  rw [foldl_add_sum, zero_add]
  exact sorted_entries_total_sum m

/-! ## IEEE-754 binary64 arithmetic (the JS double operations of part_004)

The exact-rational money model above idealises the source arithmetic; the
following models it bit-exactly. A JS double is represented by its exact
rational value, and every arithmetic result is rounded to 53 significand bits
(round to nearest, ties to even; normal finite range, which covers all money
values here). -/

/-- Round-half-even of a rational to an integer. -/
def rhe (x : ℚ) : ℤ :=
  if x - ⌊x⌋ < 1/2 then ⌊x⌋
  else if (1:ℚ)/2 < x - ⌊x⌋ then ⌊x⌋ + 1
  else if ⌊x⌋ % 2 = 0 then ⌊x⌋ else ⌊x⌋ + 1

/-- Round a rational to the nearest IEEE-754 binary64 value: scale by the
power of two that brings the magnitude into the 53-bit significand range,
round half to even, and scale back. -/
def f64round (q : ℚ) : ℚ :=
  if q = 0 then 0
  else (if q < 0 then -1 else 1) *
    (rhe (|q| * 2 ^ (52 - Int.log 2 |q|)) : ℚ) * 2 ^ (Int.log 2 |q| - 52)

/-- A JS double addition: exact sum, then one rounding. -/
def fAdd (a b : ℚ) : ℚ := f64round (a + b)

/-- A JS double division by 100: exact quotient, then one rounding. -/
def fDiv100 (a : ℚ) : ℚ := f64round (a / 100)

theorem int_log_two_eq (q : ℚ) (e : ℤ) (hq : 0 < q)
    (h1 : (2:ℚ) ^ e ≤ q) (h2 : q < 2 ^ (e + 1)) : Int.log 2 q = e := by
  have hL1 : (2:ℚ) ^ Int.log 2 q ≤ q := by
    have := Int.zpow_log_le_self (b := 2) (R := ℚ) (by norm_num) hq
    simpa using this
  have hL2 : q < 2 ^ (Int.log 2 q + 1) := by
    have := Int.lt_zpow_succ_log_self (b := 2) (R := ℚ) (by norm_num) q
    simpa using this
  by_contra hne
  rcases lt_or_gt_of_ne hne with hlt | hgt
  · have hstep : ((2:ℚ) ^ (Int.log 2 q + 1)) ≤ 2 ^ e :=
      zpow_le_zpow_right₀ (by norm_num) (by omega)
    linarith
  · have hstep : ((2:ℚ) ^ (e + 1)) ≤ 2 ^ Int.log 2 q :=
      zpow_le_zpow_right₀ (by norm_num) (by omega)
    linarith

theorem rhe_eq_floor (x : ℚ) (m : ℤ) (h1 : (m:ℚ) ≤ x) (h2 : x - m < 1/2) :
    rhe x = m := by
  have hf : ⌊x⌋ = m := Int.floor_eq_iff.mpr ⟨h1, by linarith⟩
  unfold rhe
  rw [hf, if_pos h2]

theorem rhe_eq_up (x : ℚ) (m : ℤ) (h1 : (m:ℚ) ≤ x) (h2 : (1:ℚ)/2 < x - m)
    (h3 : x < m + 1) : rhe x = m + 1 := by
  have hf : ⌊x⌋ = m := Int.floor_eq_iff.mpr ⟨h1, by linarith⟩
  unfold rhe
  rw [hf, if_neg (by linarith), if_pos h2]

theorem rhe_eq_tie_odd (x : ℚ) (m : ℤ) (hx : x - m = 1/2) (hodd : m % 2 = 1) :
    rhe x = m + 1 := by
  have hf : ⌊x⌋ = m := Int.floor_eq_iff.mpr ⟨by linarith, by linarith⟩
  unfold rhe
  rw [hf, if_neg (by rw [hx]; norm_num), if_neg (by rw [hx]; norm_num),
    if_neg (by omega)]

theorem f64round_pos_eval (q : ℚ) (e n : ℤ) (hq : 0 < q)
    (h1 : (2:ℚ) ^ e ≤ q) (h2 : q < 2 ^ (e + 1))
    (hr : rhe (q * 2 ^ (52 - e)) = n) :
    f64round q = (n : ℚ) * 2 ^ (e - 52) := by
  unfold f64round
  rw [if_neg (ne_of_gt hq), if_neg (by linarith), abs_of_pos hq,
    int_log_two_eq q e hq h1 h2, hr, one_mul]

theorem fDiv100_ten : fDiv100 10 = 3602879701896397 / 2 ^ 55 := by
  unfold fDiv100
  have hq : ((10:ℚ) / 100) = 1/10 := by norm_num
  rw [hq]
  have := f64round_pos_eval (1/10) (-4) 7205759403792794 (by norm_num)
    (by norm_num) (by norm_num)
    (by
      have hx : ((1:ℚ)/10) * 2 ^ ((52:ℤ) - (-4)) = 72057594037927936/10 := by
        norm_num
      rw [hx]
      have := rhe_eq_up (72057594037927936/10) 7205759403792793
        (by norm_num) (by norm_num) (by norm_num)
      simpa using this)
  rw [this]
  norm_num [zpow_sub₀]

theorem fDiv100_twenty : fDiv100 20 = 3602879701896397 / 2 ^ 54 := by
  unfold fDiv100
  have hq : ((20:ℚ) / 100) = 1/5 := by norm_num
  rw [hq]
  have := f64round_pos_eval (1/5) (-3) 7205759403792794 (by norm_num)
    (by norm_num) (by norm_num)
    (by
      have hx : ((1:ℚ)/5) * 2 ^ ((52:ℤ) - (-3)) = 36028797018963968/5 := by
        norm_num
      rw [hx]
      have := rhe_eq_up (36028797018963968/5) 7205759403792793
        (by norm_num) (by norm_num) (by norm_num)
      simpa using this)
  rw [this]
  norm_num [zpow_sub₀]

theorem fAdd_zero_tenth :
    fAdd 0 (3602879701896397 / 2 ^ 55) = 3602879701896397 / 2 ^ 55 := by
  unfold fAdd
  rw [zero_add]
  have := f64round_pos_eval (3602879701896397 / 2 ^ 55) (-4) 7205759403792794
    (by norm_num) (by norm_num) (by norm_num)
    (by
      have hx : ((3602879701896397:ℚ) / 2 ^ 55) * 2 ^ ((52:ℤ) - (-4))
          = 7205759403792794 := by norm_num
      rw [hx]
      have := rhe_eq_floor (7205759403792794 : ℚ) 7205759403792794
        (by norm_num) (by norm_num)
      simpa using this)
  rw [this]
  norm_num [zpow_sub₀]

theorem fAdd_tenth_fifth :
    fAdd (3602879701896397 / 2 ^ 55) (3602879701896397 / 2 ^ 54)
      = 5404319552844596 / 2 ^ 54 := by
  unfold fAdd
  have hq : ((3602879701896397:ℚ) / 2 ^ 55 + 3602879701896397 / 2 ^ 54)
      = 10808639105689191 / 2 ^ 55 := by norm_num
  rw [hq]
  have := f64round_pos_eval (10808639105689191 / 2 ^ 55) (-2) 5404319552844596
    (by norm_num) (by norm_num) (by norm_num)
    (by
      have hx : ((10808639105689191:ℚ) / 2 ^ 55) * 2 ^ ((52:ℤ) - (-2))
          = 10808639105689191/2 := by norm_num
      rw [hx]
      have := rhe_eq_tie_odd (10808639105689191/2) 5404319552844595
        (by norm_num) (by norm_num)
      simpa using this)
  rw [this]
  norm_num [zpow_sub₀]

theorem f64round_threeTenths :
    f64round ((30:ℚ) / 100) = 5404319552844595 / 2 ^ 54 := by
  have hq : ((30:ℚ) / 100) = 3/10 := by norm_num
  rw [hq]
  have := f64round_pos_eval (3/10) (-2) 5404319552844595 (by norm_num)
    (by norm_num) (by norm_num)
    (by
      have hx : ((3:ℚ)/10) * 2 ^ ((52:ℤ) - (-2)) = 54043195528445952/10 := by
        norm_num
      rw [hx]
      have := rhe_eq_floor (54043195528445952/10) 5404319552844595
        (by norm_num) (by norm_num)
      simpa using this)
  rw [this]
  norm_num [zpow_sub₀]

/-- The money fields of the part_004 hourly aggregation under faithful
double arithmetic: the statement bucket.totalAllLocations += amountCents / 100
(part_004 lines 453-456) performs one double divide then one double add per
record, while totalAllLocationsCents accumulates integer cents (line 459). -/
structure HourlyMoneyF where
  bucketTotals : Nat → ℚ
  totalCents : Int

/-- Processing of one payment (part_004 lines 432-461) restricted to the
all-locations money fields, with the double operations modelled exactly. -/
def hourlyRecordStepF (offset : Int → Int) (st : HourlyMoneyF) (p : Payment) :
    HourlyMoneyF :=
  if paymentSkipDaily p then st
  else
    let cents := amountCentsOf p
    match p.createdAt with
    | none => st
    | some t =>
      let h := localHour offset t
      if h < 5 ∨ 20 < h then st
      else
        { bucketTotals := fun h2 =>
            if h2 = h then fAdd (st.bucketTotals h2) (fDiv100 (cents : ℚ))
            else st.bucketTotals h2
          totalCents := st.totalCents + cents }

/-- The double-emitted bucket totals and the reported all-locations total of
buildHourlySummaryForRange (part_004 lines 406-486): totalAllLocations is the
double division totalAllLocationsCents / 100 (line 483), the bucket totals are
the per-record double accumulations. -/
def buildHourlyTotalsF (offset : Int → Int) (locations : List LocationInfo)
    (fetch : String → List Payment) : (Nat → ℚ) × ℚ :=
  let st0 : HourlyMoneyF := { bucketTotals := fun _ => 0, totalCents := 0 }
  let stF := locations.foldl
    (fun st loc => (fetch loc.id).foldl (hourlyRecordStepF offset) st) st0
  (stF.bucketTotals, f64round ((stF.totalCents : ℚ) / 100))

/-- A completed 10-cent payment at location A, local hour 10. -/
def pTen : Payment :=
  { status := some "COMPLETED", amount := some 10, createdAt := some 36000
    locationId := "A" }

/-- A completed 20-cent payment at location A, local hour 10. -/
def pTwenty : Payment :=
  { status := some "COMPLETED", amount := some 20, createdAt := some 36000
    locationId := "A" }

theorem hourlyDoubleTotals_concrete :
    (summaryHours.map (fun h =>
        (buildHourlyTotalsF off0 [locA] (fun _ => [pTen, pTwenty])).1 h)).sum
      = 5404319552844596 / 2 ^ 54 ∧
    (buildHourlyTotalsF off0 [locA] (fun _ => [pTen, pTwenty])).2
      = 5404319552844595 / 2 ^ 54 := by
  have ha1 : amountCentsOf pTen = 10 := f64ofInt_of_natAbs_le 10 (by norm_num)
  have ha2 : amountCentsOf pTwenty = 20 := f64ofInt_of_natAbs_le 20 (by norm_num)
  have hskip1 : paymentSkipDaily pTen = false := by decide
  have hskip2 : paymentSkipDaily pTwenty = false := by decide
  have hc1 : pTen.createdAt = some 36000 := rfl
  have hc2 : pTwenty.createdAt = some 36000 := rfl
  have hh : localHour off0 36000 = 10 := by decide
  have hb1 : ∀ h2, (hourlyRecordStepF off0 (hourlyRecordStepF off0
      { bucketTotals := fun _ => 0, totalCents := 0 } pTen) pTwenty).bucketTotals h2
      = (if h2 = 10 then fAdd (fAdd 0 (fDiv100 10)) (fDiv100 20) else 0) := by
    intro h2
    simp only [hourlyRecordStepF, hskip1, hskip2, Bool.false_eq_true, if_false,
      hc1, hc2, ha1, ha2, hh]
    norm_num
    by_cases h2eq : h2 = 10
    · simp [h2eq]
    · simp [h2eq]
  have hb2 : (hourlyRecordStepF off0 (hourlyRecordStepF off0
      { bucketTotals := fun _ => 0, totalCents := 0 } pTen) pTwenty).totalCents = 30 := by
    simp only [hourlyRecordStepF, hskip1, hskip2, Bool.false_eq_true, if_false,
      hc1, hc2, ha1, ha2, hh]
    norm_num
  constructor
  · have hmapped : (summaryHours.map (fun h =>
        (buildHourlyTotalsF off0 [locA] (fun _ => [pTen, pTwenty])).1 h))
        = summaryHours.map (fun h =>
            if h = 10 then fAdd (fAdd 0 (fDiv100 10)) (fDiv100 20) else 0) :=
      List.map_congr_left (fun h _ => hb1 h)
    rw [hmapped]
    have hsum := sum_map_update summaryHours (fun _ => 0)
      (fun h2 => if h2 = 10 then fAdd (fAdd 0 (fDiv100 10)) (fDiv100 20) else 0)
      10 (fAdd (fAdd 0 (fDiv100 10)) (fDiv100 20)) summaryHours_nodup
      ((mem_summaryHours 10).mpr (by norm_num))
      (by simp) (by intro x hx; simp [hx])
    rw [hsum]
    have hz : (summaryHours.map (fun _ => (0:ℚ))).sum = 0 := by simp
    rw [hz, zero_add, fDiv100_ten, fAdd_zero_tenth, fDiv100_twenty, fAdd_tenth_fifth]
  · have htc : (buildHourlyTotalsF off0 [locA] (fun _ => [pTen, pTwenty])).2
        = f64round (((30:Int) : ℚ) / 100) := by
      show f64round (((hourlyRecordStepF off0 (hourlyRecordStepF off0
          { bucketTotals := fun _ => 0, totalCents := 0 } pTen) pTwenty).totalCents : ℚ) / 100) = _
      rw [hb2]
    rw [htc]
    have h30 : (((30:Int) : ℚ) / 100) = (30:ℚ)/100 := by norm_num
    rw [h30, f64round_threeTenths]

/-! ## Claim C4 -/

/-- Claim C4, corrected: every assembled sales response computes its grand
total and grand count as the reduce of the per-location totals and counts, so
those equalities hold; for the part_004 hourly summary and the item
aggregation the corresponding equalities (all-locations total = sum of the
hour-bucket totals; items grand total = sum of the per-location totals) hold
of the accumulated minor-unit cents, that is over exact rational arithmetic,
as the second and third conjuncts state on the exact money model; but the
program emits IEEE-double bucket totals accumulated by a differently rounded
path, and their sum can differ from the reported all-locations total by
rounding, as the last conjunct exhibits in the faithful double model. -/
theorem claim_C4_sum_invariant :
    (∀ dper : List SalesLocationEntry,
        (salesResponseOf dper).grandTotal
          = ((salesResponseOf dper).locations.map (fun l => l.total)).sum ∧
        (salesResponseOf dper).grandCount
          = ((salesResponseOf dper).locations.map (fun l => l.count)).sum) ∧
    (∀ (off : Int → Int) (locs : List LocationInfo) (fetch : String → List Payment),
        (buildHourlySummaryForRange off locs fetch).totalAllLocations
          = (summaryHours.map (fun h =>
              optBucketTotal ((buildHourlySummaryForRange off locs fetch).hourly h))).sum) ∧
    (∀ (locs : List LocationInfo) (orders : List UpOrder),
        (aggregateItemSalesForRange locs orders).grandTotal
          = ((aggregateItemSalesForRange locs orders).perLocation.map (fun l => l.total)).sum) ∧
    (∃ (off : Int → Int) (locs : List LocationInfo) (fetch : String → List Payment),
        (summaryHours.map (fun h => (buildHourlyTotalsF off locs fetch).1 h)).sum
          ≠ (buildHourlyTotalsF off locs fetch).2) := by
  refine ⟨?_, ?_, ?_, ?_⟩
  · intro dper
    constructor
    · show dper.foldl (fun s l => s + l.total) 0 = _
      rw [foldl_add_sum]
      simp [salesResponseOf]
    · show dper.foldl (fun s l => s + l.count) 0 = _
      rw [foldl_add_sum]
      simp [salesResponseOf]
  · intro off locs fetch
    unfold buildHourlySummaryForRange
    simp only []
    rw [nested_foldl_eq_locPairs (hourlyRecordStep off)]
    exact (hourly_pairs_fold_sum_inv off (locPairs locs fetch) _
      (by simpa using initHourlyBuckets_sum_zero locs)).symm
  · intro locs orders
    unfold aggregateItemSalesForRange
    simp only []
    set locName := fun id =>
      match locs.find? (fun l => l.id = id) with
      | some loc => jsOrStr loc.name id
      | none => id with hlocName
    set st := orders.foldl (itemOrderStep locName) ([], []) with hst
    have hinv : perLocCents st.1 = assocCents st.2 :=
      items_fold_inv locName orders ([], []) rfl
    rw [foldl_add_sum, zero_add, sorted_entries_total_sum, List.map_map]
    have hcong : ∀ kv ∈ st.1,
        ((fun l : ItemsLocEntry => l.total) ∘ fun kv : String × LocItemsAccum =>
          ({ locationId := kv.2.locationId, locationName := kv.2.locationName
             total := (sortByTotalDesc (kv.2.itemsMap.map (fun ib => itemEntryOf ib.2))).foldl
               (fun s it => s + it.total) 0
             items := sortByTotalDesc (kv.2.itemsMap.map (fun ib => itemEntryOf ib.2)) }
            : ItemsLocEntry)) kv
          = (fun kv : String × LocItemsAccum =>
              ((assocCents kv.2.itemsMap : Int) : ℚ) / 100) kv :=
      fun kv _ => loc_entry_total_eq kv.2.itemsMap
    rw [List.map_congr_left hcong]
    rw [assoc_map_sum_div (fun kv : String × LocItemsAccum => assocCents kv.2.itemsMap) st.1]
    rw [show ((st.1.map (fun kv : String × LocItemsAccum => assocCents kv.2.itemsMap)).sum)
      = perLocCents st.1 from rfl]
    rw [hinv]
  · refine ⟨off0, [locA], (fun _ => [pTen, pTwenty]), ?_⟩
    rw [hourlyDoubleTotals_concrete.1, hourlyDoubleTotals_concrete.2]
    norm_num

/-- Counterexample to claim C4 as stated: under the IEEE-double arithmetic of
part_004, with completed payments of 10 and 20 minor units falling in one
business-hour bucket, the sum over the hour buckets of the emitted bucket
totals is 5404319552844596 / 2 pow 54 (the double 0.30000000000000004) while
the reported all-locations total is 5404319552844595 / 2 pow 54 (the double
0.3), so the all-locations total does not equal the sum of the bucket totals
the program emits. -/
theorem claim_C4_counterexample :
    (summaryHours.map (fun h =>
        (buildHourlyTotalsF off0 [locA] (fun _ => [pTen, pTwenty])).1 h)).sum
      = 5404319552844596 / 2 ^ 54 ∧
    (buildHourlyTotalsF off0 [locA] (fun _ => [pTen, pTwenty])).2
      = 5404319552844595 / 2 ^ 54 ∧
    (summaryHours.map (fun h =>
        (buildHourlyTotalsF off0 [locA] (fun _ => [pTen, pTwenty])).1 h)).sum
      ≠ (buildHourlyTotalsF off0 [locA] (fun _ => [pTen, pTwenty])).2 := by
  refine ⟨hourlyDoubleTotals_concrete.1, hourlyDoubleTotals_concrete.2, ?_⟩
  rw [hourlyDoubleTotals_concrete.1, hourlyDoubleTotals_concrete.2]
  norm_num

/-! ## Claim C5 -/

/-- A bucket's per-location maps are defined exactly on the given ids. -/
def BucketDom (ids : List String) (b : HourBucket) : Prop :=
  ∀ lid, ((b.totalsByLocation lid).isSome ↔ lid ∈ ids) ∧
    ((b.countByLocation lid).isSome ↔ lid ∈ ids)

/-- The hourly object has a bucket exactly at hours 5..20, each with the
per-location maps defined exactly on the given ids. -/
def HourlyDom (ids : List String) (f : Nat → Option HourBucket) : Prop :=
  ∀ h, ((f h).isSome ↔ (5 ≤ h ∧ h ≤ 20)) ∧
    ∀ b, f h = some b → BucketDom ids b

theorem bucketDom_emptyHourBucket (ids : List String) :
    BucketDom ids (emptyHourBucket ids) := by
  intro lid
  constructor <;> · simp only [emptyHourBucket]; split <;> simp_all

theorem hourlyDom_init (locs : List LocationInfo) :
    HourlyDom (locs.map (fun l => l.id)) (initHourlyBuckets locs) := by
  intro h
  constructor
  · simp only [initHourlyBuckets]
    split <;> simp_all
  · intro b hb
    simp only [initHourlyBuckets] at hb
    split at hb
    · cases hb
      exact bucketDom_emptyHourBucket _
    · cases hb

theorem bucketDom_add (ids : List String) (b : HourBucket) (locId : String)
    (cents : Int) (hb : BucketDom ids b) :
    BucketDom ids (hourBucketAdd b locId cents) := by
  intro lid
  rcases hb lid with ⟨h1, h2⟩
  constructor
  · simp only [hourBucketAdd]
    split <;> simp_all
  · simp only [hourBucketAdd]
    split <;> simp_all

theorem hourlyDom_step (ids : List String) (off : Int → Int) (locId : String)
    (st : HourlyAccum) (p : Payment) (hd : HourlyDom ids st.hourly) :
    HourlyDom ids (hourlyRecordStep off locId st p).hourly := by
  unfold hourlyRecordStep
  by_cases hskip : paymentSkipDaily p
  · simpa [hskip] using hd
  · simp only [hskip, Bool.false_eq_true, if_false]
    cases hc : p.createdAt with
    | none => simpa using hd
    | some t =>
      simp only []
      by_cases hrange : localHour off t < 5 ∨ 20 < localHour off t
      · simpa [hrange] using hd
      · simp only [hrange, if_false]
        cases hb : st.hourly (localHour off t) with
        | none => simpa using hd
        | some b =>
          simp only []
          intro h
          constructor
          · by_cases hh : h = localHour off t
            · subst hh
              show ((if localHour off t = localHour off t
                then some (hourBucketAdd b locId (amountCentsOf p))
                else st.hourly (localHour off t)).isSome = true) ↔ _
              rw [if_pos rfl]
              simp only [Option.isSome_some, true_iff]
              omega
            · simpa [hh] using (hd h).1
          · intro b2 hb2
            by_cases hh : h = localHour off t
            · subst hh
              have hb3 : (if localHour off t = localHour off t
                  then some (hourBucketAdd b locId (amountCentsOf p))
                  else st.hourly (localHour off t)) = some b2 := hb2
              rw [if_pos rfl, Option.some.injEq] at hb3
              subst hb3
              exact bucketDom_add ids b locId _ ((hd _).2 b hb)
            · simp only [if_neg hh] at hb2
              exact (hd h).2 b2 hb2

theorem hourlyDom_fold (ids : List String) (off : Int → Int) :
    ∀ (ps : List (String × Payment)) (st : HourlyAccum),
      HourlyDom ids st.hourly →
      HourlyDom ids ((ps.foldl (fun s pr => hourlyRecordStep off pr.1 s pr.2) st).hourly) := by
  intro ps
  induction ps with
  | nil => intro st h; simpa using h
  | cons pr rest ih =>
    intro st h
    exact ih _ (hourlyDom_step ids off pr.1 st pr.2 h)

/-- Claim C5, corrected: the overall hour buckets of the orders-based daily
heatmap are exactly the hours 0..23 on every input; the part_004 hourly object
is initialised with one bucket per hour 5..20 carrying a zero for every known
location, that bucket domain is preserved by the aggregation, and with no
records every bucket is returned still explicitly zero; but the per-location
entries of the orders-based heatmap are created lazily on the first order of a
location, so with no records the locations array is empty instead of carrying
a zero bucket set per known location. -/
theorem claim_C5_bucket_completeness :
    (∀ (off : Int → Int) (locs : List LocationInfo) (orders : List UpOrder),
        ((aggregateHourlyForDate off locs orders).buckets.map (fun b => b.hour))
          = List.range 24) ∧
    (∀ (locs : List LocationInfo) (h : Nat),
        (initHourlyBuckets locs h).isSome ↔ (5 ≤ h ∧ h ≤ 20)) ∧
    (∀ (off : Int → Int) (locs : List LocationInfo) (fetch : String → List Payment)
        (h : Nat),
        (((buildHourlySummaryForRange off locs fetch).hourly h).isSome
          ↔ (5 ≤ h ∧ h ≤ 20)) ∧
        ∀ b, (buildHourlySummaryForRange off locs fetch).hourly h = some b →
          ∀ lid, ((b.totalsByLocation lid).isSome ↔ lid ∈ locs.map (fun l => l.id))) ∧
    (∀ (off : Int → Int) (locs : List LocationInfo) (h : Nat), 5 ≤ h → h ≤ 20 →
        (buildHourlySummaryForRange off locs (fun _ => [])).hourly h
          = some (emptyHourBucket (locs.map (fun l => l.id)))) ∧
    (∀ (off : Int → Int) (locs : List LocationInfo),
        (aggregateHourlyForDate off locs []).locations = []) := by
  refine ⟨?_, ?_, ?_, ?_, ?_⟩
  · intro off locs orders
    unfold aggregateHourlyForDate
    simp only [List.map_map]
    exact List.map_congr_left (fun h _ => rfl) |>.trans (List.map_id _)
  · intro locs h
    simp only [initHourlyBuckets]
    split <;> simp_all
  · intro off locs fetch h
    have hdom : HourlyDom (locs.map (fun l => l.id))
        ((buildHourlySummaryForRange off locs fetch).hourly) := by
      unfold buildHourlySummaryForRange
      simp only []
      rw [nested_foldl_eq_locPairs (hourlyRecordStep off)]
      exact hourlyDom_fold _ off (locPairs locs fetch) _ (hourlyDom_init locs)
    exact ⟨(hdom h).1, fun b hb lid => ((hdom h).2 b hb lid).1⟩
  · intro off locs h h5 h20
    have hfold : (buildHourlySummaryForRange off locs (fun _ => [])).hourly
        = initHourlyBuckets locs := by
      unfold buildHourlySummaryForRange
      simp only [List.foldl_nil]
      rw [foldl_state_id]
    rw [hfold]
    simp [initHourlyBuckets, h5, h20]
  · intro off locs
    rfl

/-- Witness for claim C5: the part_004 summary of the scenario locations with
no records still carries the explicit zero bucket at hour 9. -/
theorem claim_C5_witness :
    (buildHourlySummaryForRange off0 [locA, locB] (fun _ => [])).hourly 9
      = some (emptyHourBucket (["A", "B"] : List String)) :=
  claim_C5_bucket_completeness.2.2.2.1 off0 [locA, locB] 9 (by decide) (by decide)

/-- Counterexample to claim C5 as stated: the orders-based heatmap of the
known location A over zero orders has an empty locations array, so no bucket
is present for the known location. -/
theorem claim_C5_counterexample :
    (aggregateHourlyForDate off0 [locA] []).locations = [] ∧
    ¬ ("A" ∈ (aggregateHourlyForDate off0 [locA] []).locations.map
        (fun e => e.locationId)) ∧
    [locA].map (fun l => l.id) = ["A"] := by
  refine ⟨rfl, ?_, rfl⟩
  intro hmem
  simp only [show (aggregateHourlyForDate off0 [locA] []).locations = [] from rfl,
    List.map_nil] at hmem
  cases hmem

/-! ## Claim C6 -/

theorem hourly_fold_char (off : Int → Int) (h : Nat) (h5 : 5 ≤ h) (h20 : h ≤ 20) :
    ∀ (ps : List (String × Payment)) (st : HourlyAccum) (b : HourBucket),
      st.hourly h = some b →
      ∃ b2, (ps.foldl (fun s pr => hourlyRecordStep off pr.1 s pr.2) st).hourly h
          = some b2 ∧
        b2.totalAllLocations = b.totalAllLocations +
          ((ps.filter (fun pr => placedInHour off pr.2 h)).map
            (fun pr => (amountCentsOf pr.2 : ℚ) / 100)).sum ∧
        b2.countAllLocations = b.countAllLocations +
          (ps.filter (fun pr => placedInHour off pr.2 h)).length := by
  intro ps
  induction ps with
  | nil =>
    intro st b hb
    exact ⟨b, by simpa using hb, by simp, by simp⟩
  | cons pr rest ih =>
    intro st b hb
    by_cases hskip : paymentSkipDaily pr.2
    · have hstep : hourlyRecordStep off pr.1 st pr.2 = st := by
        simp [hourlyRecordStep, hskip]
      have hplaced : placedInHour off pr.2 h = false := by
        simp [placedInHour, hskip]
      simpa [List.foldl_cons, hstep, List.filter_cons, hplaced] using ih st b hb
    · cases hc : pr.2.createdAt with
      | none =>
        have hstep : hourlyRecordStep off pr.1 st pr.2 = st := by
          simp [hourlyRecordStep, hskip, hc]
        have hplaced : placedInHour off pr.2 h = false := by
          simp [placedInHour, hskip, hc]
        simpa [List.foldl_cons, hstep, List.filter_cons, hplaced] using ih st b hb
      | some t =>
        by_cases hrange : localHour off t < 5 ∨ 20 < localHour off t
        · have hstep : hourlyRecordStep off pr.1 st pr.2 = st := by
            simp [hourlyRecordStep, hskip, hc, hrange]
          have hne : localHour off t ≠ h := by omega
          have hplaced : placedInHour off pr.2 h = false := by
            simp [placedInHour, hskip, hc, hne]
          simpa [List.foldl_cons, hstep, List.filter_cons, hplaced] using ih st b hb
        · cases hb0 : st.hourly (localHour off t) with
          | none =>
            have hstep : hourlyRecordStep off pr.1 st pr.2 = st := by
              simp [hourlyRecordStep, hskip, hc, hrange, hb0]
            have hne : localHour off t ≠ h := by
              intro hEq
              rw [hEq, hb] at hb0
              cases hb0
            have hplaced : placedInHour off pr.2 h = false := by
              simp [placedInHour, hskip, hc, hne]
            simpa [List.foldl_cons, hstep, List.filter_cons, hplaced] using ih st b hb
          | some b0 =>
            have hstep2 : (hourlyRecordStep off pr.1 st pr.2).hourly
                = fun h2 => if h2 = localHour off t
                    then some (hourBucketAdd b0 pr.1 (amountCentsOf pr.2))
                    else st.hourly h2 := by
              simp [hourlyRecordStep, hskip, hc, hrange, hb0]
            by_cases hh : localHour off t = h
            · have hbb : b0 = b := by
                rw [hh, hb] at hb0
                exact (Option.some.injEq _ _).mp hb0.symm
              subst hbb
              have hst2h : (hourlyRecordStep off pr.1 st pr.2).hourly h
                  = some (hourBucketAdd b0 pr.1 (amountCentsOf pr.2)) := by
                rw [hstep2]
                show (if h = localHour off t then _ else _) = _
                rw [if_pos hh.symm]
              have hplaced : placedInHour off pr.2 h = true := by
                simp [placedInHour, hskip, hc, hh]
              rcases ih (hourlyRecordStep off pr.1 st pr.2) _ hst2h with ⟨b2, hE, hT, hC⟩
              refine ⟨b2, by simpa [List.foldl_cons] using hE, ?_, ?_⟩
              · rw [List.filter_cons, hplaced]
                simp only [if_true, List.map_cons, List.sum_cons]
                rw [hT]
                show b0.totalAllLocations + (amountCentsOf pr.2 : ℚ) / 100 + _ = _
                ring
              · rw [List.filter_cons, hplaced]
                simp only [if_true, List.length_cons]
                rw [hC]
                show b0.countAllLocations + 1 + _ = _
                omega
            · have hst2h : (hourlyRecordStep off pr.1 st pr.2).hourly h = some b := by
                rw [hstep2]
                show (if h = localHour off t then _ else _) = _
                rw [if_neg (fun hEq => hh hEq.symm)]
                exact hb
              have hplaced : placedInHour off pr.2 h = false := by
                simp [placedInHour, hskip, hc, hh]
              simpa [List.foldl_cons, List.filter_cons, hplaced] using
                ih (hourlyRecordStep off pr.1 st pr.2) b hst2h

theorem order_fold_overall (off : Int → Int) (locName : String → String) :
    ∀ (orders : List UpOrder) (st : DailyHourlyAccum) (h2 : Nat),
      (orders.foldl (hourlyOrderStep off locName) st).overall h2
        = st.overall h2
          + ((orders.filter (fun o => orderPlacedInHour off o h2)).map orderCents).sum := by
  intro orders
  induction orders with
  | nil => intro st h2; simp
  | cons o rest ih =>
    intro st h2
    cases hI : orderInstant o with
    | none =>
      have hstep : (hourlyOrderStep off locName st o).overall = st.overall := by
        simp [hourlyOrderStep, hI]
      have hplaced : orderPlacedInHour off o h2 = false := by
        simp [orderPlacedInHour, hI]
      simp only [List.foldl_cons, List.filter_cons, hplaced, Bool.false_eq_true,
        if_false, ih, hstep]
    | some t =>
      by_cases hpos : orderCents o ≤ 0
      · have hstep : (hourlyOrderStep off locName st o).overall = st.overall := by
          simp [hourlyOrderStep, hI, hpos]
        have hplaced : orderPlacedInHour off o h2 = false := by
          simp [orderPlacedInHour, hI]
          omega
        simp only [List.foldl_cons, List.filter_cons, hplaced, Bool.false_eq_true,
          if_false, ih, hstep]
      · have hstep : (hourlyOrderStep off locName st o).overall
            = fun hh => if hh = localHour off t
                then st.overall hh + orderCents o else st.overall hh := by
          simp [hourlyOrderStep, hI, hpos]
        by_cases hh : h2 = localHour off t
        · have hplaced : orderPlacedInHour off o h2 = true := by
            simp [orderPlacedInHour, hI, hh]
            omega
          rw [List.foldl_cons, ih, hstep]
          rw [List.filter_cons, hplaced]
          simp only [if_true, List.map_cons, List.sum_cons]
          show (if h2 = localHour off t then st.overall h2 + orderCents o
            else st.overall h2) + _ = _
          rw [if_pos hh]
          ring
        · have hplaced : orderPlacedInHour off o h2 = false := by
            have hne : ¬localHour off t = h2 := fun hEq => hh hEq.symm
            simp [orderPlacedInHour, hI, hne]
          rw [List.foldl_cons, ih, hstep]
          rw [List.filter_cons, hplaced]
          simp only [Bool.false_eq_true, if_false]
          show (if h2 = localHour off t then st.overall h2 + orderCents o
            else st.overall h2) + _ = _
          rw [if_neg hh]

/-- Claim C6: in both hourly aggregations a record's createdAt instant is
converted to the target timezone and the record lands in the bucket keyed by
the local hour of the converted instant: each part_004 bucket holds exactly
the payments whose local hour is its key, each 0..23 bucket of the
orders-based heatmap holds exactly the orders whose local hour is its key,
and the local hour is always in 0..23. -/
theorem claim_C6_local_hour_bucketing :
    (∀ (off : Int → Int) (locs : List LocationInfo) (fetch : String → List Payment)
        (h : Nat), 5 ≤ h → h ≤ 20 →
        ∃ b, (buildHourlySummaryForRange off locs fetch).hourly h = some b ∧
          b.totalAllLocations = (((locPairs locs fetch).filter
              (fun pr => placedInHour off pr.2 h)).map
              (fun pr => (amountCentsOf pr.2 : ℚ) / 100)).sum ∧
          b.countAllLocations = ((locPairs locs fetch).filter
              (fun pr => placedInHour off pr.2 h)).length) ∧
    (∀ (off : Int → Int) (locs : List LocationInfo) (orders : List UpOrder),
        (aggregateHourlyForDate off locs orders).buckets
          = (List.range 24).map (fun h =>
              { hour := h
                total := ((((orders.filter (fun o => orderPlacedInHour off o h)).map
                  orderCents).sum : Int) : ℚ) / 100 })) ∧
    (∀ (off : Int → Int) (t : Int), localHour off t < 24) := by
  refine ⟨?_, ?_, ?_⟩
  · intro off locs fetch h h5 h20
    have hinit : initHourlyBuckets locs h
        = some (emptyHourBucket (locs.map (fun l => l.id))) := by
      simp [initHourlyBuckets, h5, h20]
    have hmain := hourly_fold_char off h h5 h20 (locPairs locs fetch)
      { hourly := initHourlyBuckets locs, totalCents := 0, count := 0 } _ hinit
    rcases hmain with ⟨b, hE, hT, hC⟩
    refine ⟨b, ?_, ?_, ?_⟩
    · show (buildHourlySummaryForRange off locs fetch).hourly h = some b
      unfold buildHourlySummaryForRange
      simp only []
      rw [nested_foldl_eq_locPairs (hourlyRecordStep off)]
      exact hE
    · simpa [emptyHourBucket] using hT
    · simpa [emptyHourBucket] using hC
  · intro off locs orders
    unfold aggregateHourlyForDate
    simp only []
    apply List.map_congr_left
    intro h _
    have := order_fold_overall off
      (fun id => match locs.find? (fun l => l.id = id) with
        | some loc => jsOrStr loc.name id
        | none => id)
      orders { overall := fun _ => 0, perLoc := [] } h
    simp only [zero_add] at this
    rw [this]
  · intro off t
    unfold localHour
    have h1 : 0 ≤ (t + 60 * off t) / 3600 % 24 :=
      Int.emod_nonneg _ (by norm_num)
    have h2 : (t + 60 * off t) / 3600 % 24 < 24 :=
      Int.emod_lt_of_pos _ (by norm_num)
    omega

/-- Witness for claim C6: the part_004 summary of the scenario inputs has a
10-oclock bucket holding exactly the scenario records whose converted local
hour is 10. -/
theorem claim_C6_witness :
    ∃ b, (buildHourlySummaryForRange off0 [locA, locB] scenarioPayments).hourly 10
        = some b ∧
      b.totalAllLocations = (((locPairs [locA, locB] scenarioPayments).filter
          (fun pr => placedInHour off0 pr.2 10)).map
          (fun pr => (amountCentsOf pr.2 : ℚ) / 100)).sum ∧
      b.countAllLocations = ((locPairs [locA, locB] scenarioPayments).filter
          (fun pr => placedInHour off0 pr.2 10)).length :=
  claim_C6_local_hour_bucketing.1 off0 [locA, locB] scenarioPayments 10
    (by decide) (by decide)

end PhinDash
